import Mathlib

/-!
# XDP DDoS filter (`src/ebpf/xdp_filter.c`, `src/ebpf/xdp_filter_libbpf.c`, `src/ebpf/xdp_maps.h`)

A shallow embedding of the per-packet program `xdp_ddos_filter` and of the helpers it
calls, followed by theorems about it.

Modelling conventions.

* A packet is the list of its bytes (`List Nat`, every read is reduced modulo 256); the
  pointer `data` is offset 0 and `data_end` is the length of the list.  Every read of the
  packet goes through `List.get?` and is therefore `Option`-valued: the program returns
  `none` exactly when it would read at or beyond `data_end`.
* Machine integers are natural numbers; every addition the C code performs on a counter
  is followed by an explicit reduction modulo `2 ^ w` for the width `w` of the field.
* The host is little-endian (x86-64, arm64): a multi-byte field is loaded with its first
  byte least significant, and `htons`/`ntohs` swap the two bytes of a 16-bit value.
* A BPF hash map is an association list; a pointer returned by a lookup is modelled by
  writing the updated record back under the same key.
* What the kernel decides on each run sits in `Env`: the CPU the program runs on, the
  readings of the monotonic clock, and which entries an LRU map reclaims on an insertion
  (the kernel reclaims in batches and may do so before the table is full).
* The two source files differ in the type of the flow and IP maps (`BPF_HASH` against
  `BPF_MAP_TYPE_LRU_HASH`) and in the width of `syn_count`/`udp_count` (32 against 16
  bits); `Variant` selects between them.
-/

namespace XdpFilter

/-! ## Constants of the kernel headers -/

/-- The action code `XDP_DROP` of `linux/bpf.h`. -/
abbrev XDP_DROP : Nat := 1
/-- The action code `XDP_PASS` of `linux/bpf.h`. -/
abbrev XDP_PASS : Nat := 2
/-- The ethertype `ETH_P_IP` of `linux/if_ether.h`. -/
abbrev ETH_P_IP : Nat := 0x0800
/-- The protocol number `IPPROTO_ICMP` of `linux/in.h`. -/
abbrev IPPROTO_ICMP : Nat := 1
/-- The protocol number `IPPROTO_TCP` of `linux/in.h`. -/
abbrev IPPROTO_TCP : Nat := 6
/-- The protocol number `IPPROTO_UDP` of `linux/in.h`. -/
abbrev IPPROTO_UDP : Nat := 17
/-- The size `sizeof(struct ethhdr)`. -/
abbrev ETH_HLEN : Nat := 14
/-- The size `sizeof(struct iphdr)`. -/
abbrev IPHDR_SIZE : Nat := 20
/-- The size `sizeof(struct tcphdr)`. -/
abbrev TCPHDR_SIZE : Nat := 20
/-- The size `sizeof(struct udphdr)`. -/
abbrev UDPHDR_SIZE : Nat := 8

/-- The capacity `MAX_FLOWS` of the flow map (`xdp_maps.h`, and the literal in `xdp_filter.c`). -/
abbrev MAX_FLOWS : Nat := 65536
/-- The capacity `MAX_IPS` of the IP tracking map. -/
abbrev MAX_IPS : Nat := 131072
/-- The capacity `MAX_BLACKLIST` of the blacklist map. -/
abbrev MAX_BLACKLIST : Nat := 10000
/-- The constant `MAX_CPUS` of `xdp_maps.h`. -/
abbrev MAX_CPUS : Nat := 128

/-! ## Records -/

/-- The record `struct flow_key`.  The member `pad[3]` is zeroed by every initialiser of the
program and is left out. -/
structure flow_key where
  src_ip : Nat
  dst_ip : Nat
  src_port : Nat
  dst_port : Nat
  protocol : Nat
deriving DecidableEq, Repr

/-- The record `struct flow_stats` (without its padding). -/
structure flow_stats where
  packets : Nat
  bytes : Nat
  last_seen : Nat
  flags : Nat
deriving DecidableEq, Repr

/-- The record `struct ip_stats`. -/
structure ip_stats where
  packets : Nat
  bytes : Nat
  last_seen : Nat
  flow_count : Nat
  syn_count : Nat
  udp_count : Nat
deriving DecidableEq, Repr

/-- The record `struct stats`, one per CPU. -/
structure stats where
  total_packets : Nat
  total_bytes : Nat
  dropped_packets : Nat
  dropped_bytes : Nat
  passed_packets : Nat
  passed_bytes : Nat
  tcp_packets : Nat
  udp_packets : Nat
  icmp_packets : Nat
  other_packets : Nat
deriving DecidableEq, Repr

/-- The record `struct config` of `xdp_maps.h`. -/
structure config where
  rate_limit_pps : Nat
  rate_limit_enabled : Nat
  blacklist_enabled : Nat
  signature_enabled : Nat
deriving DecidableEq, Repr

/-- The two source files of the program. -/
inductive Variant where
  | bcc
  | libbpf
deriving DecidableEq, Repr

/-- Width in bits of `ip_stats.syn_count` and `ip_stats.udp_count`: `__u32` in
`xdp_filter.c`, `__u16` in `xdp_maps.h`. -/
def Variant.counter_bits : Variant → Nat
  | .bcc => 32
  | .libbpf => 16

/-- Whether the flow and IP maps are `BPF_MAP_TYPE_LRU_HASH` (`xdp_maps.h`) or plain
`BPF_HASH` (`xdp_filter.c`). -/
def Variant.lru : Variant → Bool
  | .bcc => false
  | .libbpf => true

/-- The maps of the program.  `stats_map` is a per-CPU array with the single key 0: it
holds one record for each CPU. -/
structure State where
  flow_map : List (flow_key × flow_stats)
  ip_tracking_map : List (Nat × ip_stats)
  blacklist_map : List (Nat × Nat)
  stats_map : Nat → stats
  config_map : config

/-- What the kernel supplies to one run of the program: the CPU it runs on, the value
returned by `bpf_ktime_get_ns` inside `update_ip_stats` and inside `update_flow_stats`, and
the entries an LRU map reclaims when the run inserts a new key into the IP map or into the
flow map, as a bit mask over the positions of the table (0: the kernel reclaims nothing
unless the table is full). -/
structure Env where
  cpu : Nat
  now_ip : Nat
  now_flow : Nat
  ip_victim : Nat
  flow_victim : Nat
deriving DecidableEq, Repr

/-! ## Machine arithmetic and packet reads -/

/-- Addition on `__u64`, as `__sync_fetch_and_add` performs it. -/
def add64 (a b : Nat) : Nat := (a + b) % 2 ^ 64

/-- One byte of the packet; `none` at or beyond `data_end`. -/
def load8 (pkt : List Nat) (off : Nat) : Option Nat :=
  (pkt.get? off).map (fun b => b % 256)

/-- A 16-bit field as the little-endian host loads it. -/
def load16 (pkt : List Nat) (off : Nat) : Option Nat :=
  (load8 pkt off).bind fun b0 =>
  (load8 pkt (off + 1)).bind fun b1 =>
  some (b0 + 256 * b1)

/-- A 32-bit field as the little-endian host loads it. -/
def load32 (pkt : List Nat) (off : Nat) : Option Nat :=
  (load8 pkt off).bind fun b0 =>
  (load8 pkt (off + 1)).bind fun b1 =>
  (load8 pkt (off + 2)).bind fun b2 =>
  (load8 pkt (off + 3)).bind fun b3 =>
  some (b0 + 256 * b1 + 65536 * b2 + 16777216 * b3)

/-- The byte swap `htons` on a little-endian host. -/
def bpf_htons (x : Nat) : Nat := (x % 256) * 256 + (x / 256) % 256

/-- The byte swap `ntohs` on a little-endian host. -/
def bpf_ntohs (x : Nat) : Nat := (x % 256) * 256 + (x / 256) % 256

/-! ## BPF maps -/

/-- The helper `bpf_map_lookup_elem` on a hash map. -/
def bpf_map_lookup_elem {K V : Type} [DecidableEq K] : List (K × V) → K → Option V
  | [], _ => none
  | (k', v) :: m, k => if k' = k then some v else bpf_map_lookup_elem m k

/-- A write through the pointer that a lookup of `k` returned: the value stored under `k` is
replaced. -/
def map_store {K V : Type} [DecidableEq K] : List (K × V) → K → V → List (K × V)
  | [], _, _ => []
  | (k', v') :: m, k, v => if k' = k then (k', v) :: m else (k', v') :: map_store m k v

/-- The keys of the entries at the positions that the bit mask `mask` selects: bit `j` of
the mask stands for the entry at position `j` of the table (`i` is the position of the
first entry of the list). -/
def lru_victims {K V : Type} (mask : Nat) : Nat → List (K × V) → List K
  | _, [] => []
  | i, p :: m =>
    if mask.testBit i then p.1 :: lru_victims mask (i + 1) m
    else lru_victims mask (i + 1) m

/-- The table without the entries of the keys in `dead`. -/
def lru_evict {K V : Type} [DecidableEq K] (dead : List K) (m : List (K × V)) :
    List (K × V) :=
  m.filter (fun p => decide (p.1 ∉ dead))

/-- How an LRU hash map obtains the node for an insertion (`prealloc_lru_pop` in the
kernel).  The kernel reclaims the entries it chooses, given by the bit mask `victims`: none,
one or a whole batch, whether or not the table is full.  A table that then still holds
`max_entries` entries has no free node, and one more entry is reclaimed, the first one. -/
def lru_make_room {K V : Type} [DecidableEq K] (max_entries victims : Nat)
    (m : List (K × V)) : List (K × V) :=
  let kept := lru_evict (lru_victims victims 0 m) m
  if kept.length < max_entries then kept
  else
    match kept with
    | [] => []
    | p :: _ => lru_evict [p.1] kept

/-- The helper `bpf_map_update_elem` with flag `BPF_ANY`.  An LRU map first reclaims
entries as `lru_make_room` describes and then stores the value, under the existing key or
as a new entry: the insertion never fails.  A plain hash map replaces the value of an
existing key, adds a new key while there is room, and in a full map fails and stays as it
is (the program ignores the return value). -/
def bpf_map_update_elem {K V : Type} [DecidableEq K] (lru : Bool) (max_entries victims : Nat)
    (m : List (K × V)) (k : K) (v : V) : List (K × V) :=
  if lru then
    let kept := lru_make_room max_entries victims m
    match bpf_map_lookup_elem kept k with
    | some _ => map_store kept k v
    | none => kept ++ [(k, v)]
  else
    match bpf_map_lookup_elem m k with
    | some _ => map_store m k v
    | none => if m.length < max_entries then m ++ [(k, v)] else m

/-- The lookup of key `key` in the per-CPU array `stats_map` (one slot) on CPU `cpu`:
a pointer to this CPU's record, or NULL when the key is not below `max_entries`. -/
def stats_map_lookup (m : Nat → stats) (cpu key : Nat) : Option stats :=
  if key < 1 then some (m cpu) else none

/-- The effect on `stats_map` of the writes that `update_stats` makes through the pointer
`s` to the record of CPU `cpu`: that record is replaced, and through a NULL pointer nothing
is written. -/
def stats_map_store (m : Nat → stats) (cpu : Nat) : Option stats → Nat → stats
  | some r => Function.update m cpu r
  | none => m

/-- The helper `get_time_ns`: the `__u64` reading of the monotonic clock. -/
def get_time_ns (ktime : Nat) : Nat := ktime % 2 ^ 64

/-! ## The program -/

/-- The function `update_stats`: on a NULL pointer nothing, otherwise the record after the
additions. -/
def update_stats (s : Option stats) (bytes protocol action : Nat) : Option stats :=
  match s with
  | none => none
  | some s =>
    let s := { s with total_packets := add64 s.total_packets 1 }
    let s := { s with total_bytes := add64 s.total_bytes bytes }
    let s :=
      if action = XDP_DROP then
        { s with dropped_packets := add64 s.dropped_packets 1,
                 dropped_bytes := add64 s.dropped_bytes bytes }
      else if action = XDP_PASS then
        { s with passed_packets := add64 s.passed_packets 1,
                 passed_bytes := add64 s.passed_bytes bytes }
      else s
    let s :=
      if protocol = IPPROTO_TCP then { s with tcp_packets := add64 s.tcp_packets 1 }
      else if protocol = IPPROTO_UDP then { s with udp_packets := add64 s.udp_packets 1 }
      else if protocol = IPPROTO_ICMP then { s with icmp_packets := add64 s.icmp_packets 1 }
      else { s with other_packets := add64 s.other_packets 1 }
    some s

/-- The function `is_blacklisted`: whether the lookup in `blacklist_map` is not NULL. -/
def is_blacklisted (blacklist_map : List (Nat × Nat)) (src_ip : Nat) : Bool :=
  (bpf_map_lookup_elem blacklist_map src_ip).isSome

/-- The function `update_ip_stats` on the IP tracking map. -/
def update_ip_stats (v : Variant) (now victim : Nat) (ip_tracking_map : List (Nat × ip_stats))
    (src_ip bytes protocol tcp_flags : Nat) : List (Nat × ip_stats) :=
  match bpf_map_lookup_elem ip_tracking_map src_ip with
  | some ip_stat =>
    let e := { ip_stat with packets := add64 ip_stat.packets 1 }
    let e := { e with bytes := add64 e.bytes bytes }
    let e := { e with last_seen := get_time_ns now }
    let e :=
      if protocol = IPPROTO_TCP ∧ tcp_flags &&& 0x02 ≠ 0 then
        { e with syn_count := (e.syn_count + 1) % 2 ^ v.counter_bits }
      else if protocol = IPPROTO_UDP then
        { e with udp_count := (e.udp_count + 1) % 2 ^ v.counter_bits }
      else e
    map_store ip_tracking_map src_ip e
  | none =>
    let new_stat : ip_stats :=
      { packets := 1,
        bytes := bytes,
        last_seen := get_time_ns now,
        flow_count := 1,
        syn_count := if protocol = IPPROTO_TCP ∧ tcp_flags &&& 0x02 ≠ 0 then 1 else 0,
        udp_count := if protocol = IPPROTO_UDP then 1 else 0 }
    bpf_map_update_elem v.lru MAX_IPS victim ip_tracking_map src_ip new_stat

/-- The function `update_flow_stats` on the flow map. -/
def update_flow_stats (v : Variant) (now victim : Nat) (flow_map : List (flow_key × flow_stats))
    (key : flow_key) (bytes tcp_flags : Nat) : List (flow_key × flow_stats) :=
  match bpf_map_lookup_elem flow_map key with
  | some flow =>
    let e := { flow with packets := add64 flow.packets 1 }
    let e := { e with bytes := add64 e.bytes bytes }
    let e := { e with last_seen := get_time_ns now }
    let e := { e with flags := (e.flags ||| tcp_flags) % 256 }
    map_store flow_map key e
  | none =>
    let new_flow : flow_stats :=
      { packets := 1,
        bytes := bytes,
        last_seen := get_time_ns now,
        flags := tcp_flags }
    bpf_map_update_elem v.lru MAX_FLOWS victim flow_map key new_flow

/-- The block at the label `update_tracking` of `xdp_ddos_filter`: the IP map, the flow map
and this CPU's statistics are updated and `action` is returned. -/
def update_tracking (v : Variant) (env : Env) (st : State) (s : Option stats)
    (src_ip packet_size protocol tcp_flags : Nat) (fkey : flow_key) (action : Nat) :
    Nat × State :=
  let ip' := update_ip_stats v env.now_ip env.ip_victim st.ip_tracking_map src_ip packet_size
    protocol tcp_flags
  let flow' := update_flow_stats v env.now_flow env.flow_victim st.flow_map fkey packet_size
    tcp_flags
  let stats' := stats_map_store st.stats_map env.cpu
    (update_stats s packet_size protocol action)
  (action, { st with ip_tracking_map := ip', flow_map := flow', stats_map := stats' })

/-- The program `xdp_ddos_filter`.  The result is the returned action and the maps after the
run, or `none` if the run reads the packet at or beyond `data_end`. -/
def xdp_ddos_filter (v : Variant) (env : Env) (st : State) (pkt : List Nat) :
    Option (Nat × State) :=
  let data_end := pkt.length
  let packet_size := data_end % 2 ^ 64
  let action := XDP_PASS
  let s := stats_map_lookup st.stats_map env.cpu 0
  if ETH_HLEN > data_end then some (XDP_DROP, st)
  else
    (load16 pkt 12).bind fun h_proto =>
    if h_proto ≠ bpf_htons ETH_P_IP then some (XDP_PASS, st)
    else if ETH_HLEN + IPHDR_SIZE > data_end then some (XDP_DROP, st)
    else
      (load32 pkt (ETH_HLEN + 12)).bind fun src_ip =>
      (load32 pkt (ETH_HLEN + 16)).bind fun dst_ip =>
      (load8 pkt (ETH_HLEN + 9)).bind fun protocol =>
      if is_blacklisted st.blacklist_map src_ip then
        let action := XDP_DROP
        let stats' := stats_map_store st.stats_map env.cpu
          (update_stats s packet_size protocol action)
        some (action, { st with stats_map := stats' })
      else
        let fkey : flow_key :=
          { src_ip := src_ip, dst_ip := dst_ip, protocol := protocol,
            src_port := 0, dst_port := 0 }
        let tcp_flags := 0
        if protocol = IPPROTO_TCP then
          (load8 pkt ETH_HLEN).bind fun vihl =>
          let tcph := ETH_HLEN + (vihl % 16) * 4
          if tcph + TCPHDR_SIZE > data_end then
            some (update_tracking v env st s src_ip packet_size protocol tcp_flags fkey action)
          else
            (load16 pkt tcph).bind fun source =>
            (load16 pkt (tcph + 2)).bind fun dest =>
            let fkey := { fkey with src_port := bpf_ntohs source, dst_port := bpf_ntohs dest }
            (load8 pkt (tcph + 13)).bind fun tcp_flags =>
            let action :=
              if tcp_flags &&& 0x02 ≠ 0 then
                match bpf_map_lookup_elem st.ip_tracking_map src_ip with
                | some ip_stat => if ip_stat.syn_count > 1000 then XDP_DROP else action
                | none => action
              else action
            some (update_tracking v env st s src_ip packet_size protocol tcp_flags fkey action)
        else if protocol = IPPROTO_UDP then
          (load8 pkt ETH_HLEN).bind fun vihl =>
          let udph := ETH_HLEN + (vihl % 16) * 4
          if udph + UDPHDR_SIZE > data_end then
            some (update_tracking v env st s src_ip packet_size protocol tcp_flags fkey action)
          else
            (load16 pkt udph).bind fun source =>
            (load16 pkt (udph + 2)).bind fun dest =>
            let fkey := { fkey with src_port := bpf_ntohs source, dst_port := bpf_ntohs dest }
            some (update_tracking v env st s src_ip packet_size protocol tcp_flags fkey action)
        else
          some (update_tracking v env st s src_ip packet_size protocol tcp_flags fkey action)

/-! ## Fields of a packet, for the statements -/

/-- Byte `i` of the packet as an octet (0 beyond the end of the buffer). -/
def byte_at (pkt : List Nat) (i : Nat) : Nat := pkt.getD i 0 % 256
/-- The big-endian (network order) value of the two bytes at `off`. -/
def be16 (pkt : List Nat) (off : Nat) : Nat := 256 * byte_at pkt off + byte_at pkt (off + 1)
/-- The ethertype of the frame: bytes 12-13 in network order (`eth->h_proto`). -/
def eth_proto (pkt : List Nat) : Nat := be16 pkt 12
/-- The field `iph->saddr` (bytes 12-15 of the IP header) as the host loads it. -/
def ip_saddr (pkt : List Nat) : Nat :=
  byte_at pkt 26 + 256 * byte_at pkt 27 + 65536 * byte_at pkt 28 + 16777216 * byte_at pkt 29
/-- The field `iph->daddr` (bytes 16-19 of the IP header) as the host loads it. -/
def ip_daddr (pkt : List Nat) : Nat :=
  byte_at pkt 30 + 256 * byte_at pkt 31 + 65536 * byte_at pkt 32 + 16777216 * byte_at pkt 33
/-- The field `iph->protocol` (byte 9 of the IP header). -/
def ip_protocol (pkt : List Nat) : Nat := byte_at pkt 23
/-- The field `iph->ihl`: the low four bits of the first byte of the IP header. -/
def ip_ihl (pkt : List Nat) : Nat := byte_at pkt 14 % 16
/-- The offset of the transport header: `sizeof(struct ethhdr) + iph->ihl * 4`. -/
def l4_offset (pkt : List Nat) : Nat := 14 + ip_ihl pkt * 4

/-- The flow key of a packet whose transport header was not parsed: both ports zero. -/
def portless_key (pkt : List Nat) : flow_key :=
  { src_ip := ip_saddr pkt, dst_ip := ip_daddr pkt, src_port := 0, dst_port := 0,
    protocol := ip_protocol pkt }

/-- The flow key of a packet whose transport header was parsed: the ports are the first two
16-bit fields of the transport header, in network order. -/
def port_key (pkt : List Nat) : flow_key :=
  { src_ip := ip_saddr pkt, dst_ip := ip_daddr pkt, src_port := be16 pkt (l4_offset pkt),
    dst_port := be16 pkt (l4_offset pkt + 2), protocol := ip_protocol pkt }

/-- The flags octet of a TCP header: byte 13 of the transport header. -/
def tcp_flag_byte (pkt : List Nat) : Nat := byte_at pkt (l4_offset pkt + 13)

/-- The `syn_count` stored for `ip` in the IP tracking map, 0 when `ip` has no entry. -/
def stored_syn_count (m : List (Nat × ip_stats)) (ip : Nat) : Nat :=
  match bpf_map_lookup_elem m ip with
  | some e => e.syn_count
  | none => 0

/-! ## Sequences of packets -/

/-- The program run on one packet after the other, each with what the kernel supplies to
that run: the list of returned actions and the maps after the last run. -/
def run_packets (v : Variant) : State → List (Env × List Nat) → Option (List Nat × State)
  | st, [] => some ([], st)
  | st, (env, pkt) :: rest =>
    (xdp_ddos_filter v env st pkt).bind fun r =>
    (run_packets v r.2 rest).map fun q => (r.1 :: q.1, q.2)

/-- A well-formed TCP SYN from source `ip`: an IPv4 frame of at least 34 bytes with source
address `ip` and protocol TCP, whose 20-byte TCP header at offset 14 + IHL*4 fits in the
buffer and has bit 0x02 of the flags byte set. -/
def tcp_syn_from (ip : Nat) (pkt : List Nat) : Prop :=
  34 ≤ pkt.length ∧ eth_proto pkt = 0x0800 ∧ ip_saddr pkt = ip ∧
  ip_protocol pkt = IPPROTO_TCP ∧ 14 + ip_ihl pkt * 4 + 20 ≤ pkt.length ∧
  tcp_flag_byte pkt &&& 0x02 ≠ 0

instance tcp_syn_from_decidable (ip : Nat) (pkt : List Nat) : Decidable (tcp_syn_from ip pkt) := by
  unfold tcp_syn_from
  infer_instance

/-! ## Example frames, states and environments -/

/-- A 10-byte runt: shorter than an Ethernet header. -/
def frame_runt : List Nat := [255, 255, 255, 255, 255, 255, 2, 0, 0, 0]

/-- An 18-byte frame with ethertype 0x0806 (ARP). -/
def frame_arp : List Nat :=
  [255, 255, 255, 255, 255, 255, 2, 0, 0, 0, 0, 1, 8, 6, 0, 1, 8, 0]

/-- A 20-byte frame with ethertype 0x0800 cut inside the IP header. -/
def frame_ipv4_cut : List Nat :=
  [2, 0, 0, 0, 0, 2, 2, 0, 0, 0, 0, 1, 8, 0, 69, 0, 0, 40, 0, 0]

/-- A 54-byte TCP SYN from 10.0.0.1 port 12345 to 10.0.0.2 port 80 (IHL 5, flags 0x02). -/
def frame_syn : List Nat :=
  [2, 0, 0, 0, 0, 2, 2, 0, 0, 0, 0, 1, 8, 0,
   69, 0, 0, 40, 0, 0, 0, 0, 64, 6, 0, 0, 10, 0, 0, 1, 10, 0, 0, 2,
   48, 57, 0, 80, 0, 0, 0, 0, 0, 0, 0, 0, 80, 2, 0, 0, 0, 0, 0, 0]

/-- A 54-byte TCP ACK (flags 0x10) of the same flow as `frame_syn`. -/
def frame_ack : List Nat :=
  [2, 0, 0, 0, 0, 2, 2, 0, 0, 0, 0, 1, 8, 0,
   69, 0, 0, 40, 0, 0, 0, 0, 64, 6, 0, 0, 10, 0, 0, 1, 10, 0, 0, 2,
   48, 57, 0, 80, 0, 0, 0, 0, 0, 0, 0, 0, 80, 16, 0, 0, 0, 0, 0, 0]

/-- A 42-byte UDP datagram from 10.0.0.1 port 5353 to 10.0.0.2 port 53 (IHL 5). -/
def frame_udp : List Nat :=
  [2, 0, 0, 0, 0, 2, 2, 0, 0, 0, 0, 1, 8, 0,
   69, 0, 0, 28, 0, 0, 0, 0, 64, 17, 0, 0, 10, 0, 0, 1, 10, 0, 0, 2,
   20, 233, 0, 53, 0, 8, 0, 0]

/-- The address 10.0.0.1 as the host loads it from the packet. -/
def ip_10_0_0_1 : Nat := 16777226

/-- A statistics record with every counter zero. -/
def stats_zero : stats := ⟨0, 0, 0, 0, 0, 0, 0, 0, 0, 0⟩

/-- Empty maps, zero statistics on every CPU, and a configuration with only
`blacklist_enabled` set. -/
def st_empty : State :=
  { flow_map := [], ip_tracking_map := [], blacklist_map := [],
    stats_map := fun _ => stats_zero, config_map := ⟨0, 0, 1, 0⟩ }

/-- As `st_empty`, with 10.0.0.1 on the blacklist (banned at time 7). -/
def st_banned : State :=
  { flow_map := [], ip_tracking_map := [], blacklist_map := [(ip_10_0_0_1, 7)],
    stats_map := fun _ => stats_zero, config_map := ⟨0, 0, 1, 0⟩ }

/-- As `st_empty`, with an IP entry for 10.0.0.1 that has counted 1001 SYN packets. -/
def st_flooded : State :=
  { flow_map := [], ip_tracking_map := [(ip_10_0_0_1, ⟨1001, 54054, 99, 1, 1001, 0⟩)],
    blacklist_map := [], stats_map := fun _ => stats_zero, config_map := ⟨0, 0, 1, 0⟩ }

/-- As `st_banned`, with `blacklist_enabled` (and every other configuration field) zero. -/
def st_banned_off : State :=
  { flow_map := [], ip_tracking_map := [], blacklist_map := [(ip_10_0_0_1, 7)],
    stats_map := fun _ => stats_zero, config_map := ⟨0, 0, 0, 0⟩ }

/-- As `st_empty`, with every field of the configuration record set to 3. -/
def st_config3 : State :=
  { flow_map := [], ip_tracking_map := [], blacklist_map := [],
    stats_map := fun _ => stats_zero, config_map := ⟨3, 3, 3, 3⟩ }

/-- A run on CPU 0 with clock readings 100 and 101. -/
def env_cpu0 : Env := ⟨0, 100, 101, 0, 0⟩

/-! ## What one run records -/

/-- A packet that reaches `update_stats`: an IPv4 frame of at least 34 bytes. -/
def counted (pkt : List Nat) : Prop := 34 ≤ pkt.length ∧ eth_proto pkt = 0x0800

instance counted_decidable (pkt : List Nat) : Decidable (counted pkt) := by
  unfold counted
  infer_instance

/-- The transport header of the packet is parsed: the protocol is TCP and the 20-byte TCP
header fits in the buffer, or the protocol is UDP and the 8-byte UDP header fits. -/
def transport_parsed (pkt : List Nat) : Prop :=
  (ip_protocol pkt = IPPROTO_TCP ∧ l4_offset pkt + 20 ≤ pkt.length) ∨
  (ip_protocol pkt = IPPROTO_UDP ∧ l4_offset pkt + 8 ≤ pkt.length)

instance transport_parsed_decidable (pkt : List Nat) : Decidable (transport_parsed pkt) := by
  unfold transport_parsed
  infer_instance

/-- The flow key under which a tracked packet is recorded. -/
def recorded_key (pkt : List Nat) : flow_key :=
  if transport_parsed pkt then port_key pkt else portless_key pkt

/-- The flag byte with which a tracked packet is recorded. -/
def recorded_flags (pkt : List Nat) : Nat :=
  if ip_protocol pkt = IPPROTO_TCP ∧ l4_offset pkt + 20 ≤ pkt.length then tcp_flag_byte pkt
  else 0

/-! ## Tables filled to capacity -/

/-- A flow table holding `MAX_FLOWS` entries, for the flows with source addresses 0 to
65535 (UDP, no ports). -/
def flow_table_full : List (flow_key × flow_stats) :=
  (List.range MAX_FLOWS).map fun i => (⟨i, 0, 0, 0, 17⟩, ⟨1, 60, 50, 0⟩)

/-- An IP table holding `MAX_IPS` entries, for the source addresses 0 to 131071. -/
def ip_table_full : List (Nat × ip_stats) :=
  (List.range MAX_IPS).map fun i => (i, ⟨1, 60, 50, 1, 0, 0⟩)

/-- Both tables filled to capacity, no blacklist entry, zero statistics. -/
def st_full : State :=
  { flow_map := flow_table_full, ip_tracking_map := ip_table_full, blacklist_map := [],
    stats_map := fun _ => stats_zero, config_map := ⟨0, 0, 1, 0⟩ }

/-! ## Aggregated statistics -/

/-- Modelled from the spec: the read side of the statistics aggregator (section 4.6), which
sums the per-context records into one total; the summation is done outside the source
files.  Here: the sum of `total_packets` over the records of the CPUs 0 to `ncpu - 1`. -/
def aggregate_total_packets (ncpu : Nat) (m : Nat → stats) : Nat :=
  ((List.range ncpu).map fun c => (m c).total_packets).sum

/-! ## The invariant of a statistics record -/

/-- The three sums that tie the counters of a statistics record together. -/
def stats_consistent (s : stats) : Prop :=
  s.total_packets = s.dropped_packets + s.passed_packets ∧
  s.total_bytes = s.dropped_bytes + s.passed_bytes ∧
  s.total_packets = s.tcp_packets + s.udp_packets + s.icmp_packets + s.other_packets

/-- No counter of `r` is below the same counter of `s`. -/
def stats_le (s r : stats) : Prop :=
  s.total_packets ≤ r.total_packets ∧ s.total_bytes ≤ r.total_bytes ∧
  s.dropped_packets ≤ r.dropped_packets ∧ s.dropped_bytes ≤ r.dropped_bytes ∧
  s.passed_packets ≤ r.passed_packets ∧ s.passed_bytes ≤ r.passed_bytes ∧
  s.tcp_packets ≤ r.tcp_packets ∧ s.udp_packets ≤ r.udp_packets ∧
  s.icmp_packets ≤ r.icmp_packets ∧ s.other_packets ≤ r.other_packets

/-- From `s` to `r` exactly one of `dropped_packets`, `passed_packets` grew, by one. -/
def one_action_counted (s r : stats) : Prop :=
  (r.dropped_packets = s.dropped_packets + 1 ∧ r.passed_packets = s.passed_packets) ∨
  (r.passed_packets = s.passed_packets + 1 ∧ r.dropped_packets = s.dropped_packets)

/-- From `s` to `r` exactly one of the four protocol counters grew, by one. -/
def one_protocol_counted (s r : stats) : Prop :=
  (r.tcp_packets = s.tcp_packets + 1 ∧ r.udp_packets = s.udp_packets ∧
    r.icmp_packets = s.icmp_packets ∧ r.other_packets = s.other_packets) ∨
  (r.tcp_packets = s.tcp_packets ∧ r.udp_packets = s.udp_packets + 1 ∧
    r.icmp_packets = s.icmp_packets ∧ r.other_packets = s.other_packets) ∨
  (r.tcp_packets = s.tcp_packets ∧ r.udp_packets = s.udp_packets ∧
    r.icmp_packets = s.icmp_packets + 1 ∧ r.other_packets = s.other_packets) ∨
  (r.tcp_packets = s.tcp_packets ∧ r.udp_packets = s.udp_packets ∧
    r.icmp_packets = s.icmp_packets ∧ r.other_packets = s.other_packets + 1)

/-- A 54-byte TCP SYN-ACK from 10.0.0.2 port 80 to 10.0.0.1 port 12345: the opposite
direction of `frame_syn`. -/
def frame_syn_ack : List Nat :=
  [2, 0, 0, 0, 0, 1, 2, 0, 0, 0, 0, 2, 8, 0,
   69, 0, 0, 40, 0, 0, 0, 0, 64, 6, 0, 0, 10, 0, 0, 2, 10, 0, 0, 1,
   0, 80, 48, 57, 0, 0, 0, 0, 0, 0, 0, 1, 80, 18, 0, 0, 0, 0, 0, 0]

/-! ## Evictions -/

/-- No eviction takes place between the table `before` a run and the table `after` it:
every key that has an entry before still has one after. -/
def no_eviction {K V : Type} [DecidableEq K] (before after : List (K × V)) : Prop :=
  ∀ k, bpf_map_lookup_elem before k ≠ none → bpf_map_lookup_elem after k ≠ none

/-- Recording key `k` in table `m` reclaims nothing: the table is a plain hash map, or the
key has an entry already (the program then writes through the pointer that the lookup
returned and inserts nothing), or the LRU map reclaims no entry on the insertion. -/
def reclaims_nothing {K V : Type} [DecidableEq K] (lru : Bool) (max_entries victims : Nat)
    (m : List (K × V)) (k : K) : Prop :=
  lru = false ∨ bpf_map_lookup_elem m k ≠ none ∨ lru_make_room max_entries victims m = m

/-- The address 10.0.0.2 as the host loads it from the packet. -/
def ip_10_0_0_2 : Nat := 33554442

/-- Two tracked sources, 10.0.0.1 and 10.0.0.2, one flow of 10.0.0.2 (that of
`frame_syn_ack`), and 10.0.0.9 on the blacklist. -/
def st_two_sources : State :=
  { flow_map := [(port_key frame_syn_ack, ⟨7, 378, 90, 18⟩)],
    ip_tracking_map := [(ip_10_0_0_1, ⟨3, 162, 80, 1, 3, 0⟩),
      (ip_10_0_0_2, ⟨7, 378, 90, 1, 7, 0⟩)],
    blacklist_map := [(150994954, 7)], stats_map := fun _ => stats_zero,
    config_map := ⟨0, 0, 1, 0⟩ }

/-! ## A run that keeps the entry of a source -/

/-- Whether the IP entry of `ip` is in the table after each packet of the sequence: the
entry is never evicted during the run. -/
def ip_entry_kept (v : Variant) (ip : Nat) : State → List (Env × List Nat) → Bool
  | _, [] => true
  | st, (env, pkt) :: rest =>
    match xdp_ddos_filter v env st pkt with
    | some r =>
      (bpf_map_lookup_elem r.2.ip_tracking_map ip).isSome && ip_entry_kept v ip r.2 rest
    | none => false

/-- The number of well-formed TCP SYN packets from `ip` in a sequence of packets. -/
def syn_packets_from (ip : Nat) (ps : List (Env × List Nat)) : Nat :=
  ps.countP (fun p => decide (tcp_syn_from ip p.2))

/-- As `st_flooded`, with the 16-bit `syn_count` of 10.0.0.1 at its maximum 65535. -/
def st_count_max : State :=
  { flow_map := [], ip_tracking_map := [(ip_10_0_0_1, ⟨65535, 3538890, 99, 1, 65535, 0⟩)],
    blacklist_map := [], stats_map := fun _ => stats_zero, config_map := ⟨0, 0, 1, 0⟩ }

/-! ## Reads inside the buffer succeed -/

theorem byte_at_lt (pkt : List Nat) (i : Nat) : byte_at pkt i < 256 :=
  Nat.mod_lt _ (by decide)

theorem load8_of_lt {pkt : List Nat} {off : Nat} (h : off < pkt.length) :
    load8 pkt off = some (byte_at pkt off) := by
  simp [load8, byte_at, List.getD, List.get?_eq_get h, List.getElem?_eq_getElem h]

theorem load16_of_lt {pkt : List Nat} {off : Nat} (h : off + 1 < pkt.length) :
    load16 pkt off = some (byte_at pkt off + 256 * byte_at pkt (off + 1)) := by
  simp [load16, load8_of_lt (show off < pkt.length by omega), load8_of_lt h]

theorem load32_of_lt {pkt : List Nat} {off : Nat} (h : off + 3 < pkt.length) :
    load32 pkt off = some (byte_at pkt off + 256 * byte_at pkt (off + 1)
      + 65536 * byte_at pkt (off + 2) + 16777216 * byte_at pkt (off + 3)) := by
  simp [load32, load8_of_lt (show off < pkt.length by omega),
    load8_of_lt (show off + 1 < pkt.length by omega),
    load8_of_lt (show off + 2 < pkt.length by omega), load8_of_lt h]

theorem h_proto_ne_iff (pkt : List Nat) :
    byte_at pkt 12 + 256 * byte_at pkt 13 ≠ bpf_htons ETH_P_IP ↔ eth_proto pkt ≠ ETH_P_IP := by
  have h0 := byte_at_lt pkt 12
  have h1 := byte_at_lt pkt 13
  have : bpf_htons ETH_P_IP = 8 := by decide
  rw [this]
  simp only [eth_proto, be16, Nat.reduceAdd, ETH_P_IP]
  omega

theorem bpf_ntohs_load (pkt : List Nat) (off : Nat) :
    bpf_ntohs (byte_at pkt off + 256 * byte_at pkt (off + 1)) = be16 pkt off := by
  have h0 := byte_at_lt pkt off
  have h1 := byte_at_lt pkt (off + 1)
  simp only [bpf_ntohs, be16]
  omega

/-! ## The paths of `xdp_ddos_filter` -/

theorem filter_short (v : Variant) (env : Env) (st : State) (pkt : List Nat)
    (h : pkt.length < 14) : xdp_ddos_filter v env st pkt = some (XDP_DROP, st) := by
  simp [xdp_ddos_filter, h]

theorem filter_non_ip (v : Variant) (env : Env) (st : State) (pkt : List Nat)
    (h : 14 ≤ pkt.length) (hp : eth_proto pkt ≠ ETH_P_IP) :
    xdp_ddos_filter v env st pkt = some (XDP_PASS, st) := by
  have hp' := (h_proto_ne_iff pkt).mpr hp
  simp only [xdp_ddos_filter, load16_of_lt (show 12 + 1 < pkt.length by omega)]
  simp [Nat.not_lt.mpr h, hp']

theorem filter_ip_short (v : Variant) (env : Env) (st : State) (pkt : List Nat)
    (h : 14 ≤ pkt.length) (hp : eth_proto pkt = ETH_P_IP) (h34 : pkt.length < 34) :
    xdp_ddos_filter v env st pkt = some (XDP_DROP, st) := by
  have hp' : ¬ (byte_at pkt 12 + 256 * byte_at pkt 13 ≠ bpf_htons ETH_P_IP) := by
    rw [h_proto_ne_iff]; exact not_not.mpr hp
  simp only [xdp_ddos_filter, load16_of_lt (show 12 + 1 < pkt.length by omega)]
  have h34' : ETH_HLEN + IPHDR_SIZE > pkt.length := by simp only [ETH_HLEN, IPHDR_SIZE]; omega
  simp [Nat.not_lt.mpr h, not_not.mp hp', h34']

theorem syn_check_eq (m : List (Nat × ip_stats)) (ip f : Nat) :
    (if f &&& 0x02 ≠ 0 then
      match bpf_map_lookup_elem m ip with
      | some ip_stat => if ip_stat.syn_count > 1000 then XDP_DROP else XDP_PASS
      | none => XDP_PASS
    else XDP_PASS) =
    (if f &&& 0x02 ≠ 0 ∧ stored_syn_count m ip > 1000 then XDP_DROP else XDP_PASS) := by
  unfold stored_syn_count
  cases bpf_map_lookup_elem m ip <;> by_cases hf : f &&& 2 = 0 <;> simp [hf]

theorem stats_map_lookup_zero (m : Nat → stats) (cpu : Nat) :
    stats_map_lookup m cpu 0 = some (m cpu) := by
  simp [stats_map_lookup]

theorem filter_ipv4_pre (pkt : List Nat) (h34 : 34 ≤ pkt.length) (hp : eth_proto pkt = ETH_P_IP) :
    ¬ (ETH_HLEN > pkt.length) ∧ load16 pkt 12 = some (bpf_htons ETH_P_IP) ∧
    ¬ (ETH_HLEN + IPHDR_SIZE > pkt.length) ∧
    load32 pkt (ETH_HLEN + 12) = some (ip_saddr pkt) ∧
    load32 pkt (ETH_HLEN + 16) = some (ip_daddr pkt) ∧
    load8 pkt (ETH_HLEN + 9) = some (ip_protocol pkt) ∧
    load8 pkt ETH_HLEN = some (byte_at pkt 14) := by
  have hp' : ¬ (byte_at pkt 12 + 256 * byte_at pkt 13 ≠ bpf_htons ETH_P_IP) := by
    rw [h_proto_ne_iff]; exact not_not.mpr hp
  refine ⟨?_, ?_, ?_, ?_, ?_, ?_, ?_⟩
  · simp only [ETH_HLEN]; omega
  · rw [load16_of_lt (show 12 + 1 < pkt.length by omega), not_not.mp hp']
  · simp only [ETH_HLEN, IPHDR_SIZE]; omega
  · rw [load32_of_lt (show ETH_HLEN + 12 + 3 < pkt.length by simp only [ETH_HLEN]; omega)]; rfl
  · rw [load32_of_lt (show ETH_HLEN + 16 + 3 < pkt.length by simp only [ETH_HLEN]; omega)]; rfl
  · rw [load8_of_lt (show ETH_HLEN + 9 < pkt.length by simp only [ETH_HLEN]; omega)]; rfl
  · rw [load8_of_lt (show ETH_HLEN < pkt.length by simp only [ETH_HLEN]; omega)]

theorem filter_blacklisted (v : Variant) (env : Env) (st : State) (pkt : List Nat)
    (h34 : 34 ≤ pkt.length) (hp : eth_proto pkt = ETH_P_IP)
    (hbl : is_blacklisted st.blacklist_map (ip_saddr pkt) = true) :
    xdp_ddos_filter v env st pkt = some (XDP_DROP,
      { st with
        stats_map := stats_map_store st.stats_map env.cpu
          (update_stats (some (st.stats_map env.cpu)) (pkt.length % 2 ^ 64) (ip_protocol pkt)
            XDP_DROP) }) := by
  obtain ⟨h1, h2, h3, h4, h5, h6, _⟩ := filter_ipv4_pre pkt h34 hp
  have hne : ¬ (bpf_htons ETH_P_IP ≠ bpf_htons ETH_P_IP) := fun h => h rfl
  simp only [xdp_ddos_filter, h2, h4, h5, h6, if_neg h1, if_neg h3, Option.some_bind, hbl,
    stats_map_lookup_zero, if_neg hne, if_true, if_false]

theorem filter_tcp_short (v : Variant) (env : Env) (st : State) (pkt : List Nat)
    (h34 : 34 ≤ pkt.length) (hp : eth_proto pkt = ETH_P_IP)
    (hbl : is_blacklisted st.blacklist_map (ip_saddr pkt) = false)
    (htcp : ip_protocol pkt = IPPROTO_TCP) (hfit : pkt.length < l4_offset pkt + 20) :
    xdp_ddos_filter v env st pkt = some (update_tracking v env st (some (st.stats_map env.cpu))
      (ip_saddr pkt) (pkt.length % 2 ^ 64) (ip_protocol pkt) 0 (portless_key pkt) XDP_PASS) := by
  obtain ⟨h1, h2, h3, h4, h5, h6, h7⟩ := filter_ipv4_pre pkt h34 hp
  have hne : ¬ (bpf_htons ETH_P_IP ≠ bpf_htons ETH_P_IP) := fun h => h rfl
  have hfit' : ETH_HLEN + byte_at pkt 14 % 16 * 4 + TCPHDR_SIZE > pkt.length := hfit
  simp only [xdp_ddos_filter, h2, h4, h5, h6, h7, if_neg h1, if_neg h3, Option.some_bind, hbl,
    stats_map_lookup_zero, if_neg hne, if_true, if_false, htcp, if_pos hfit',
    Bool.false_eq_true]
  rw [← htcp]; rfl

theorem filter_tcp (v : Variant) (env : Env) (st : State) (pkt : List Nat)
    (h34 : 34 ≤ pkt.length) (hp : eth_proto pkt = ETH_P_IP)
    (hbl : is_blacklisted st.blacklist_map (ip_saddr pkt) = false)
    (htcp : ip_protocol pkt = IPPROTO_TCP) (hfit : l4_offset pkt + 20 ≤ pkt.length) :
    xdp_ddos_filter v env st pkt = some (update_tracking v env st (some (st.stats_map env.cpu))
      (ip_saddr pkt) (pkt.length % 2 ^ 64) (ip_protocol pkt) (tcp_flag_byte pkt) (port_key pkt)
      (if tcp_flag_byte pkt &&& 0x02 ≠ 0 ∧ stored_syn_count st.ip_tracking_map (ip_saddr pkt) > 1000
        then XDP_DROP else XDP_PASS)) := by
  obtain ⟨h1, h2, h3, h4, h5, h6, h7⟩ := filter_ipv4_pre pkt h34 hp
  have hne : ¬ (bpf_htons ETH_P_IP ≠ bpf_htons ETH_P_IP) := fun h => h rfl
  have hfit' : ¬ (ETH_HLEN + byte_at pkt 14 % 16 * 4 + TCPHDR_SIZE > pkt.length) :=
    Nat.not_lt.mpr hfit
  have hoff : ETH_HLEN + byte_at pkt 14 % 16 * 4 = l4_offset pkt := rfl
  have hfit2 : l4_offset pkt + 20 ≤ pkt.length := hfit
  have l1 := load16_of_lt (show l4_offset pkt + 1 < pkt.length by omega)
  have l2 := load16_of_lt (show l4_offset pkt + 2 + 1 < pkt.length by omega)
  have l3 := load8_of_lt (show l4_offset pkt + 13 < pkt.length by omega)
  simp only [xdp_ddos_filter, h2, h4, h5, h6, h7, if_neg h1, if_neg h3, Option.some_bind, hbl,
    stats_map_lookup_zero, if_neg hne, if_true, if_false, htcp, if_neg hfit',
    Bool.false_eq_true, hoff, l1, l2, l3, bpf_ntohs_load]
  rw [syn_check_eq, if_neg (Nat.not_lt.mpr hfit)]
  simp only [port_key, tcp_flag_byte, htcp]

theorem filter_udp_short (v : Variant) (env : Env) (st : State) (pkt : List Nat)
    (h34 : 34 ≤ pkt.length) (hp : eth_proto pkt = ETH_P_IP)
    (hbl : is_blacklisted st.blacklist_map (ip_saddr pkt) = false)
    (hudp : ip_protocol pkt = IPPROTO_UDP) (hfit : pkt.length < l4_offset pkt + 8) :
    xdp_ddos_filter v env st pkt = some (update_tracking v env st (some (st.stats_map env.cpu))
      (ip_saddr pkt) (pkt.length % 2 ^ 64) (ip_protocol pkt) 0 (portless_key pkt) XDP_PASS) := by
  obtain ⟨h1, h2, h3, h4, h5, h6, h7⟩ := filter_ipv4_pre pkt h34 hp
  have hne : ¬ (bpf_htons ETH_P_IP ≠ bpf_htons ETH_P_IP) := fun h => h rfl
  have hnt : ¬ (IPPROTO_UDP = IPPROTO_TCP) := by decide
  have hfit' : ETH_HLEN + byte_at pkt 14 % 16 * 4 + UDPHDR_SIZE > pkt.length := hfit
  simp only [xdp_ddos_filter, h2, h4, h5, h6, h7, if_neg h1, if_neg h3, Option.some_bind, hbl,
    stats_map_lookup_zero, if_neg hne, if_true, if_false, hudp, if_pos hfit', if_neg hnt,
    Bool.false_eq_true]
  rw [← hudp]; rfl

theorem filter_udp (v : Variant) (env : Env) (st : State) (pkt : List Nat)
    (h34 : 34 ≤ pkt.length) (hp : eth_proto pkt = ETH_P_IP)
    (hbl : is_blacklisted st.blacklist_map (ip_saddr pkt) = false)
    (hudp : ip_protocol pkt = IPPROTO_UDP) (hfit : l4_offset pkt + 8 ≤ pkt.length) :
    xdp_ddos_filter v env st pkt = some (update_tracking v env st (some (st.stats_map env.cpu))
      (ip_saddr pkt) (pkt.length % 2 ^ 64) (ip_protocol pkt) 0 (port_key pkt) XDP_PASS) := by
  obtain ⟨h1, h2, h3, h4, h5, h6, h7⟩ := filter_ipv4_pre pkt h34 hp
  have hne : ¬ (bpf_htons ETH_P_IP ≠ bpf_htons ETH_P_IP) := fun h => h rfl
  have hnt : ¬ (IPPROTO_UDP = IPPROTO_TCP) := by decide
  have hoff : ETH_HLEN + byte_at pkt 14 % 16 * 4 = l4_offset pkt := rfl
  have l1 := load16_of_lt (show l4_offset pkt + 1 < pkt.length by omega)
  have l2 := load16_of_lt (show l4_offset pkt + 2 + 1 < pkt.length by omega)
  simp only [xdp_ddos_filter, h2, h4, h5, h6, h7, if_neg h1, if_neg h3, Option.some_bind, hbl,
    stats_map_lookup_zero, if_neg hne, if_true, if_false, hudp, if_neg hnt,
    Bool.false_eq_true, hoff, l1, l2, bpf_ntohs_load]
  rw [if_neg (Nat.not_lt.mpr hfit)]
  simp only [port_key, hudp]

theorem filter_other (v : Variant) (env : Env) (st : State) (pkt : List Nat)
    (h34 : 34 ≤ pkt.length) (hp : eth_proto pkt = ETH_P_IP)
    (hbl : is_blacklisted st.blacklist_map (ip_saddr pkt) = false)
    (htcp : ip_protocol pkt ≠ IPPROTO_TCP) (hudp : ip_protocol pkt ≠ IPPROTO_UDP) :
    xdp_ddos_filter v env st pkt = some (update_tracking v env st (some (st.stats_map env.cpu))
      (ip_saddr pkt) (pkt.length % 2 ^ 64) (ip_protocol pkt) 0 (portless_key pkt) XDP_PASS) := by
  obtain ⟨h1, h2, h3, h4, h5, h6, h7⟩ := filter_ipv4_pre pkt h34 hp
  have hne : ¬ (bpf_htons ETH_P_IP ≠ bpf_htons ETH_P_IP) := fun h => h rfl
  simp only [xdp_ddos_filter, h2, h4, h5, h6, h7, if_neg h1, if_neg h3, Option.some_bind, hbl,
    stats_map_lookup_zero, if_neg hne, if_true, if_false, if_neg htcp, if_neg hudp,
    Bool.false_eq_true]
  rfl

/-! ## Truncated and non-IPv4 frames -/

/-- C1: a buffer shorter than the 14-byte Ethernet header, or an IPv4 frame shorter than
34 bytes (Ethernet header and the 20-byte IP header), is dropped, and the flow table, the
IP table, the blacklist, the configuration and the statistics of every CPU are exactly as
before the call. -/
theorem xdp_ddos_filter_truncated (v : Variant) (env : Env) (st : State) (pkt : List Nat)
    (h : pkt.length < 14 ∨ (eth_proto pkt = ETH_P_IP ∧ pkt.length < 34)) :
    xdp_ddos_filter v env st pkt = some (XDP_DROP, st) := by
  rcases h with h | ⟨hp, h34⟩
  · exact filter_short v env st pkt h
  · by_cases h14 : pkt.length < 14
    · exact filter_short v env st pkt h14
    · exact filter_ip_short v env st pkt (Nat.le_of_not_lt h14) hp h34

/-- C1, at a 10-byte runt and at a 20-byte IPv4 frame. -/
theorem xdp_ddos_filter_truncated_witness :
    (frame_runt.length < 14 ∧
      xdp_ddos_filter Variant.libbpf env_cpu0 st_banned frame_runt = some (XDP_DROP, st_banned)) ∧
    (eth_proto frame_ipv4_cut = ETH_P_IP ∧ frame_ipv4_cut.length < 34 ∧
      xdp_ddos_filter Variant.bcc env_cpu0 st_empty frame_ipv4_cut = some (XDP_DROP, st_empty)) :=
  ⟨⟨by decide, xdp_ddos_filter_truncated _ _ _ _ (Or.inl (by decide))⟩,
   ⟨by decide, by decide, xdp_ddos_filter_truncated _ _ _ _ (Or.inr ⟨by decide, by decide⟩)⟩⟩

/-- C2: a frame of at least 14 bytes whose ethertype (bytes 12-13, network order) is not
0x0800 is passed, and every table and every statistics record is exactly as before the
call: no counter, not even `total_packets`, is incremented. -/
theorem xdp_ddos_filter_non_ipv4 (v : Variant) (env : Env) (st : State) (pkt : List Nat)
    (h14 : 14 ≤ pkt.length) (hp : eth_proto pkt ≠ 0x0800) :
    xdp_ddos_filter v env st pkt = some (XDP_PASS, st) :=
  filter_non_ip v env st pkt h14 hp

/-- C2, at an ARP frame. -/
theorem xdp_ddos_filter_non_ipv4_witness :
    14 ≤ frame_arp.length ∧ eth_proto frame_arp ≠ 0x0800 ∧
    xdp_ddos_filter Variant.libbpf env_cpu0 st_banned frame_arp = some (XDP_PASS, st_banned) :=
  ⟨by decide, by decide, xdp_ddos_filter_non_ipv4 _ _ _ _ (by decide) (by decide)⟩

/-- C3: no run of the program reads the packet at or beyond `data_end`.  Every read of the
model is `Option`-valued and the program yields `none` as soon as one read is out of
bounds; for every buffer (every length, every IHL), every state and both variants the
program yields an action, which is XDP_DROP or XDP_PASS. -/
theorem xdp_ddos_filter_reads_in_bounds (v : Variant) (env : Env) (st : State)
    (pkt : List Nat) :
    ∃ action st', xdp_ddos_filter v env st pkt = some (action, st') ∧
      (action = XDP_DROP ∨ action = XDP_PASS) := by
  by_cases h14 : pkt.length < 14
  · exact ⟨_, _, filter_short v env st pkt h14, Or.inl rfl⟩
  have h14' : 14 ≤ pkt.length := Nat.le_of_not_lt h14
  by_cases hp : eth_proto pkt = ETH_P_IP
  swap
  · exact ⟨_, _, filter_non_ip v env st pkt h14' hp, Or.inr rfl⟩
  by_cases h34 : pkt.length < 34
  · exact ⟨_, _, filter_ip_short v env st pkt h14' hp h34, Or.inl rfl⟩
  have h34' : 34 ≤ pkt.length := Nat.le_of_not_lt h34
  cases hbl : is_blacklisted st.blacklist_map (ip_saddr pkt)
  swap
  · exact ⟨_, _, filter_blacklisted v env st pkt h34' hp hbl, Or.inl rfl⟩
  by_cases htcp : ip_protocol pkt = IPPROTO_TCP
  · by_cases hfit : pkt.length < l4_offset pkt + 20
    · exact ⟨_, _, filter_tcp_short v env st pkt h34' hp hbl htcp hfit, Or.inr rfl⟩
    · have hr := filter_tcp v env st pkt h34' hp hbl htcp (Nat.le_of_not_lt hfit)
      by_cases hc : tcp_flag_byte pkt &&& 0x02 ≠ 0 ∧
          stored_syn_count st.ip_tracking_map (ip_saddr pkt) > 1000
      · rw [if_pos hc] at hr
        exact ⟨_, _, hr, Or.inl rfl⟩
      · rw [if_neg hc] at hr
        exact ⟨_, _, hr, Or.inr rfl⟩
  by_cases hudp : ip_protocol pkt = IPPROTO_UDP
  · by_cases hfit : pkt.length < l4_offset pkt + 8
    · exact ⟨_, _, filter_udp_short v env st pkt h34' hp hbl hudp hfit, Or.inr rfl⟩
    · exact ⟨_, _, filter_udp v env st pkt h34' hp hbl hudp (Nat.le_of_not_lt hfit), Or.inr rfl⟩
  exact ⟨_, _, filter_other v env st pkt h34' hp hbl htcp hudp, Or.inr rfl⟩

/-! ## Statistics and blacklist lemmas -/

theorem update_stats_drop (s : stats) (bytes protocol : Nat) :
    ∃ r, update_stats (some s) bytes protocol XDP_DROP = some r ∧
      r.total_packets = add64 s.total_packets 1 ∧ r.total_bytes = add64 s.total_bytes bytes ∧
      r.dropped_packets = add64 s.dropped_packets 1 ∧
      r.dropped_bytes = add64 s.dropped_bytes bytes ∧
      r.passed_packets = s.passed_packets ∧ r.passed_bytes = s.passed_bytes := by
  refine ⟨_, rfl, ?_⟩
  simp only [if_true]
  split_ifs <;> simp

theorem add64_mod (a b : Nat) : add64 a (b % 2 ^ 64) = (a + b) % 2 ^ 64 := by
  simp [add64, Nat.add_mod_mod]

theorem is_blacklisted_of_lookup {m : List (Nat × Nat)} {ip ts : Nat}
    (h : bpf_map_lookup_elem m ip = some ts) : is_blacklisted m ip = true := by
  simp [is_blacklisted, h]

theorem not_blacklisted_of_lookup {m : List (Nat × Nat)} {ip : Nat}
    (h : bpf_map_lookup_elem m ip = none) : is_blacklisted m ip = false := by
  simp [is_blacklisted, h]

/-! ## The IP header check -/

/-- C5: an IPv4 frame of at least 34 bytes whose source IP has a blacklist entry, whatever
the timestamp stored, is dropped.  The SYN-flood heuristic plays no part: the action is
XDP_DROP whatever the IP table holds.  In the statistics record of the calling CPU
`total_packets` and `dropped_packets` grow by 1 and `total_bytes` and `dropped_bytes` by the
frame length (64-bit counters), `passed_packets` and `passed_bytes` keep their values, and
the flow table is exactly as before: no entry is created or modified. -/
theorem xdp_ddos_filter_blacklisted (v : Variant) (env : Env) (st : State) (pkt : List Nat)
    (ts : Nat) (h34 : 34 ≤ pkt.length) (hp : eth_proto pkt = 0x0800)
    (hbl : bpf_map_lookup_elem st.blacklist_map (ip_saddr pkt) = some ts) :
    ∃ st', xdp_ddos_filter v env st pkt = some (XDP_DROP, st') ∧
      (∀ m, (xdp_ddos_filter v env { st with ip_tracking_map := m } pkt).map Prod.fst =
        some XDP_DROP) ∧
      st'.flow_map = st.flow_map ∧
      (st'.stats_map env.cpu).total_packets
        = ((st.stats_map env.cpu).total_packets + 1) % 2 ^ 64 ∧
      (st'.stats_map env.cpu).dropped_packets
        = ((st.stats_map env.cpu).dropped_packets + 1) % 2 ^ 64 ∧
      (st'.stats_map env.cpu).total_bytes
        = ((st.stats_map env.cpu).total_bytes + pkt.length) % 2 ^ 64 ∧
      (st'.stats_map env.cpu).dropped_bytes
        = ((st.stats_map env.cpu).dropped_bytes + pkt.length) % 2 ^ 64 ∧
      (st'.stats_map env.cpu).passed_packets = (st.stats_map env.cpu).passed_packets ∧
      (st'.stats_map env.cpu).passed_bytes = (st.stats_map env.cpu).passed_bytes := by
  have hb := is_blacklisted_of_lookup hbl
  obtain ⟨r, hr, h1, h2, h3, h4, h5, h6⟩ :=
    update_stats_drop (st.stats_map env.cpu) (pkt.length % 2 ^ 64) (ip_protocol pkt)
  refine ⟨_, filter_blacklisted v env st pkt h34 hp hb, ?_, rfl, ?_⟩
  · intro m
    rw [filter_blacklisted v env { st with ip_tracking_map := m } pkt h34 hp hb]
    rfl
  · simp only [hr, stats_map_store, Function.update_same]
    rw [add64_mod] at h2 h4
    exact ⟨h1, h3, h2, h4, h5, h6⟩

/-- C5, at a TCP SYN from the blacklisted 10.0.0.1. -/
theorem xdp_ddos_filter_blacklisted_witness :
    34 ≤ frame_syn.length ∧ eth_proto frame_syn = 0x0800 ∧
    bpf_map_lookup_elem st_banned.blacklist_map (ip_saddr frame_syn) = some 7 ∧
    ∃ st', xdp_ddos_filter Variant.libbpf env_cpu0 st_banned frame_syn = some (XDP_DROP, st') ∧
      st'.flow_map = [] ∧ (st'.stats_map 0).total_packets = 1 ∧
      (st'.stats_map 0).dropped_bytes = 54 := by
  obtain ⟨st', h, _, hf, h1, _, _, h4, _⟩ :=
    xdp_ddos_filter_blacklisted Variant.libbpf env_cpu0 st_banned frame_syn 7
      (by decide) (by decide) (by decide)
  exact ⟨by decide, by decide, by decide, st', h, hf, h1, h4⟩

/-- C6, refuted as stated: a TCP SYN from the blacklisted 10.0.0.1 leaves the IP table
without an entry for 10.0.0.1 when there was none, and leaves an existing entry with its
`packets` and `bytes` as they were. -/
theorem blacklisted_packet_not_counted_per_source :
    bpf_map_lookup_elem st_banned.blacklist_map (ip_saddr frame_syn) = some 7 ∧
    (xdp_ddos_filter Variant.libbpf env_cpu0 st_banned frame_syn).map
        (fun r => (r.1, bpf_map_lookup_elem r.2.ip_tracking_map (ip_saddr frame_syn))) =
      some (XDP_DROP, none) ∧
    (xdp_ddos_filter Variant.libbpf env_cpu0
        { st_banned with ip_tracking_map := [(ip_10_0_0_1, ⟨4, 216, 90, 1, 4, 0⟩)] }
        frame_syn).map
        (fun r => (r.1, bpf_map_lookup_elem r.2.ip_tracking_map (ip_saddr frame_syn))) =
      some (XDP_DROP, some ⟨4, 216, 90, 1, 4, 0⟩) :=
  ⟨by decide, by decide, by decide⟩

/-- C6, amended: a well-formed IPv4 packet from a blacklisted source IP is dropped and does
not reach the IP reputation tracker: the IP table after the call is exactly the IP table
before it (no entry is created, no `packets` or `bytes` field changes), and so are the
flow table, the blacklist and the configuration; the packet is counted in the statistics of
the calling CPU only. -/
theorem xdp_ddos_filter_blacklisted_trackers_untouched (v : Variant) (env : Env) (st : State)
    (pkt : List Nat) (ts : Nat) (h34 : 34 ≤ pkt.length) (hp : eth_proto pkt = 0x0800)
    (hbl : bpf_map_lookup_elem st.blacklist_map (ip_saddr pkt) = some ts) :
    ∃ st', xdp_ddos_filter v env st pkt = some (XDP_DROP, st') ∧
      st'.ip_tracking_map = st.ip_tracking_map ∧ st'.flow_map = st.flow_map ∧
      st'.blacklist_map = st.blacklist_map ∧ st'.config_map = st.config_map ∧
      (st'.stats_map env.cpu).total_packets
        = ((st.stats_map env.cpu).total_packets + 1) % 2 ^ 64 ∧
      ∀ cpu, cpu ≠ env.cpu → st'.stats_map cpu = st.stats_map cpu := by
  have hb := is_blacklisted_of_lookup hbl
  obtain ⟨r, hr, h1, _⟩ :=
    update_stats_drop (st.stats_map env.cpu) (pkt.length % 2 ^ 64) (ip_protocol pkt)
  refine ⟨_, filter_blacklisted v env st pkt h34 hp hb, rfl, rfl, rfl, rfl, ?_, ?_⟩
  · simp only [hr, stats_map_store, Function.update_same]
    exact h1
  · intro cpu hcpu
    simp only [hr, stats_map_store, Function.update_noteq hcpu]

/-- C6 amended, at a TCP SYN from the blacklisted 10.0.0.1. -/
theorem xdp_ddos_filter_blacklisted_trackers_untouched_witness :
    bpf_map_lookup_elem st_banned.blacklist_map (ip_saddr frame_syn) = some 7 ∧
    ∃ st', xdp_ddos_filter Variant.bcc env_cpu0 st_banned frame_syn = some (XDP_DROP, st') ∧
      st'.ip_tracking_map = [] ∧ (st'.stats_map 0).total_packets = 1 := by
  obtain ⟨st', h, hi, _, _, _, h1, _⟩ :=
    xdp_ddos_filter_blacklisted_trackers_untouched Variant.bcc env_cpu0 st_banned frame_syn 7
      (by decide) (by decide) (by decide)
  exact ⟨by decide, st', h, hi, h1⟩

/-! ## Map lemmas -/

theorem lookup_map_store_same {K V : Type} [DecidableEq K] (m : List (K × V)) (k : K)
    (v : V) (h : bpf_map_lookup_elem m k ≠ none) :
    bpf_map_lookup_elem (map_store m k v) k = some v := by
  induction m with
  | nil => exact absurd rfl h
  | cons p m ih =>
    obtain ⟨k', v'⟩ := p
    by_cases hk : k' = k
    · simp [map_store, bpf_map_lookup_elem, hk]
    · simp only [bpf_map_lookup_elem, if_neg hk] at h
      simp [map_store, bpf_map_lookup_elem, hk, ih h]

theorem lookup_map_store_other {K V : Type} [DecidableEq K] (m : List (K × V)) (k k2 : K)
    (v : V) (h : k2 ≠ k) :
    bpf_map_lookup_elem (map_store m k v) k2 = bpf_map_lookup_elem m k2 := by
  induction m with
  | nil => rfl
  | cons p m ih =>
    obtain ⟨k', v'⟩ := p
    by_cases hk : k' = k
    · have hk2 : ¬ k' = k2 := fun e => h (e ▸ hk)
      simp only [map_store, if_pos hk, bpf_map_lookup_elem, if_neg hk2]
    · by_cases hk2 : k' = k2
      · simp only [map_store, if_neg hk, bpf_map_lookup_elem, if_pos hk2]
      · simp only [map_store, if_neg hk, bpf_map_lookup_elem, if_neg hk2, ih]

theorem lookup_append_new {K V : Type} [DecidableEq K] (m : List (K × V)) (k : K) (v : V)
    (h : bpf_map_lookup_elem m k = none) :
    bpf_map_lookup_elem (m ++ [(k, v)]) k = some v := by
  induction m with
  | nil => simp [bpf_map_lookup_elem]
  | cons p m ih =>
    obtain ⟨k', v'⟩ := p
    by_cases hk : k' = k
    · simp [bpf_map_lookup_elem, hk] at h
    · simp only [bpf_map_lookup_elem, if_neg hk] at h
      simp [bpf_map_lookup_elem, hk, ih h]

theorem lru_victims_zero {K V : Type} (i : Nat) (m : List (K × V)) :
    lru_victims 0 i m = [] := by
  induction m generalizing i with
  | nil => rfl
  | cons p m ih =>
    simp only [lru_victims, Nat.zero_testBit, Bool.false_eq_true, if_false, ih]

theorem lru_evict_nil {K V : Type} [DecidableEq K] (m : List (K × V)) :
    lru_evict [] m = m := by
  simp [lru_evict]

/-- A lookup after an eviction: nothing for an evicted key, the old entry for any other. -/
theorem lookup_lru_evict {K V : Type} [DecidableEq K] (dead : List K) (m : List (K × V))
    (k : K) :
    bpf_map_lookup_elem (lru_evict dead m) k =
      if k ∈ dead then none else bpf_map_lookup_elem m k := by
  induction m with
  | nil => simp [lru_evict, bpf_map_lookup_elem]
  | cons p m ih =>
    obtain ⟨k', v'⟩ := p
    unfold lru_evict at ih ⊢
    by_cases hd : k' ∈ dead
    · rw [List.filter_cons_of_neg (by simpa using hd), ih]
      by_cases hk : k' = k
      · subst hk
        simp [hd]
      · simp [bpf_map_lookup_elem, hk]
    · rw [List.filter_cons_of_pos (by simpa using hd)]
      by_cases hk : k' = k
      · subst hk
        simp [bpf_map_lookup_elem, hd]
      · simp only [bpf_map_lookup_elem, if_neg hk]
        exact ih

theorem lru_evict_length_le {K V : Type} [DecidableEq K] (dead : List K)
    (m : List (K × V)) : (lru_evict dead m).length ≤ m.length :=
  List.length_filter_le _ _

/-- Reclaiming never alters an entry: a key has its old entry afterwards, or none. -/
theorem lookup_lru_make_room {K V : Type} [DecidableEq K] (cap victims : Nat)
    (m : List (K × V)) (k : K) :
    bpf_map_lookup_elem (lru_make_room cap victims m) k = bpf_map_lookup_elem m k ∨
    bpf_map_lookup_elem (lru_make_room cap victims m) k = none := by
  have h1 : ∀ dead : List K, ∀ l : List (K × V),
      bpf_map_lookup_elem (lru_evict dead l) k = bpf_map_lookup_elem l k ∨
      bpf_map_lookup_elem (lru_evict dead l) k = none := by
    intro dead l
    rw [lookup_lru_evict]
    by_cases hd : k ∈ dead
    · right; rw [if_pos hd]
    · left; rw [if_neg hd]
  have h2 := h1 (lru_victims victims 0 m) m
  unfold lru_make_room
  simp only
  generalize lru_evict (lru_victims victims 0 m) m = kept at h2 ⊢
  by_cases hlen : kept.length < cap
  · rw [if_pos hlen]; exact h2
  · rw [if_neg hlen]
    cases kept with
    | nil => right; rfl
    | cons p rest =>
      simp only
      rcases h1 [p.1] (p :: rest) with h | h
      · rcases h2 with h3 | h3
        · left; rw [h, h3]
        · right; rw [h, h3]
      · right; exact h

/-- After reclaiming, a table within its capacity has a free slot. -/
theorem lru_make_room_length {K V : Type} [DecidableEq K] (cap victims : Nat)
    (m : List (K × V)) (hcap : 0 < cap) (h : m.length ≤ cap) :
    (lru_make_room cap victims m).length < cap := by
  have hle := lru_evict_length_le (lru_victims victims 0 m) m
  unfold lru_make_room
  simp only
  generalize lru_evict (lru_victims victims 0 m) m = kept at hle ⊢
  by_cases hlen : kept.length < cap
  · rw [if_pos hlen]; exact hlen
  · rw [if_neg hlen]
    cases kept with
    | nil => exact hcap
    | cons p rest =>
      simp only
      have h2 : (lru_evict [p.1] (p :: rest)).length ≤ rest.length := by
        unfold lru_evict
        rw [List.filter_cons_of_neg (by simp)]
        exact List.length_filter_le _ _
      simp only [List.length_cons] at hle
      omega

/-- With no victim named and a free slot in the table, nothing is reclaimed. -/
theorem lru_make_room_none {K V : Type} [DecidableEq K] (cap victims : Nat)
    (m : List (K × V)) (hv : lru_victims victims 0 m = []) (hroom : m.length < cap) :
    lru_make_room cap victims m = m := by
  unfold lru_make_room
  simp only [hv, lru_evict_nil, if_pos hroom]

/-- After `bpf_map_update_elem` the key is present with the new value, unless the map is a
full plain hash map that did not hold the key. -/
theorem lookup_update_elem {K V : Type} [DecidableEq K] (lru : Bool) (cap victim : Nat)
    (m : List (K × V)) (k : K) (v : V)
    (h : lru = true ∨ m.length < cap ∨ bpf_map_lookup_elem m k ≠ none) :
    bpf_map_lookup_elem (bpf_map_update_elem lru cap victim m k v) k = some v := by
  unfold bpf_map_update_elem
  cases lru with
  | true =>
    simp only [if_true]
    cases hk : bpf_map_lookup_elem (lru_make_room cap victim m) k with
    | some e =>
      simp only
      exact lookup_map_store_same _ k v (by simp [hk])
    | none =>
      simp only
      exact lookup_append_new _ k v hk
  | false =>
    simp only [Bool.false_eq_true, if_false]
    cases hl : bpf_map_lookup_elem m k with
    | some e =>
      simp only
      exact lookup_map_store_same m k v (by simp [hl])
    | none =>
      simp only
      rcases h with h | h | h
      · exact absurd h (by decide)
      · rw [if_pos h]; exact lookup_append_new m k v hl
      · exact absurd hl h

/-- The entry of `src_ip` after `update_ip_stats` when it had one before. -/
theorem update_ip_stats_present (v : Variant) (now victim : Nat) (m : List (Nat × ip_stats))
    (src_ip bytes protocol tcp_flags : Nat) (e : ip_stats)
    (h : bpf_map_lookup_elem m src_ip = some e) :
    ∃ e', bpf_map_lookup_elem
        (update_ip_stats v now victim m src_ip bytes protocol tcp_flags) src_ip = some e' ∧
      e'.packets = add64 e.packets 1 ∧ e'.bytes = add64 e.bytes bytes ∧
      e'.last_seen = now % 2 ^ 64 ∧ e'.flow_count = e.flow_count ∧
      e'.syn_count = (if protocol = IPPROTO_TCP ∧ tcp_flags &&& 0x02 ≠ 0
        then (e.syn_count + 1) % 2 ^ v.counter_bits else e.syn_count) ∧
      e'.udp_count = (if ¬ (protocol = IPPROTO_TCP ∧ tcp_flags &&& 0x02 ≠ 0) ∧
          protocol = IPPROTO_UDP
        then (e.udp_count + 1) % 2 ^ v.counter_bits else e.udp_count) := by
  unfold update_ip_stats
  simp only [h]
  refine ⟨_, lookup_map_store_same m src_ip _ (by simp [h]), ?_⟩
  by_cases hs : protocol = IPPROTO_TCP ∧ tcp_flags &&& 0x02 ≠ 0
  · simp [hs, get_time_ns]
  · by_cases hu : protocol = IPPROTO_UDP
    · simp [hs, hu, get_time_ns]
    · simp [hs, hu, get_time_ns]

/-- The entry of `src_ip` after `update_ip_stats` when it had none before and the insertion
succeeds (LRU map, or room in the map). -/
theorem update_ip_stats_absent (v : Variant) (now victim : Nat) (m : List (Nat × ip_stats))
    (src_ip bytes protocol tcp_flags : Nat) (h : bpf_map_lookup_elem m src_ip = none)
    (hroom : v.lru = true ∨ m.length < MAX_IPS) :
    bpf_map_lookup_elem
        (update_ip_stats v now victim m src_ip bytes protocol tcp_flags) src_ip =
      some { packets := 1, bytes := bytes, last_seen := now % 2 ^ 64, flow_count := 1,
             syn_count := if protocol = IPPROTO_TCP ∧ tcp_flags &&& 0x02 ≠ 0 then 1 else 0,
             udp_count := if protocol = IPPROTO_UDP then 1 else 0 } := by
  unfold update_ip_stats
  simp only [h]
  exact lookup_update_elem _ _ _ _ _ _ (by tauto)

/-- The entry of `key` after `update_flow_stats` when the key is present before, or the
insertion succeeds (LRU map, or room in the map). -/
theorem update_flow_stats_lookup (v : Variant) (now victim : Nat)
    (m : List (flow_key × flow_stats)) (key : flow_key) (bytes tcp_flags : Nat)
    (hroom : v.lru = true ∨ m.length < MAX_FLOWS ∨ bpf_map_lookup_elem m key ≠ none) :
    bpf_map_lookup_elem (update_flow_stats v now victim m key bytes tcp_flags) key =
      some (match bpf_map_lookup_elem m key with
        | some f => { packets := add64 f.packets 1, bytes := add64 f.bytes bytes,
                      last_seen := now % 2 ^ 64, flags := (f.flags ||| tcp_flags) % 256 }
        | none => { packets := 1, bytes := bytes, last_seen := now % 2 ^ 64,
                    flags := tcp_flags }) := by
  unfold update_flow_stats
  cases h : bpf_map_lookup_elem m key with
  | some f =>
    simp only
    exact lookup_map_store_same m key _ (by simp [h])
  | none =>
    simp only
    refine lookup_update_elem _ _ _ _ _ _ ?_
    rcases hroom with h1 | h1 | h1
    · exact Or.inl h1
    · exact Or.inr (Or.inl h1)
    · exact absurd h h1

/-! ## The decision for a source that is not blacklisted -/

/-- C7: for an IPv4 frame of at least 34 bytes from a source without a blacklist entry the
program returns XDP_DROP or XDP_PASS, and XDP_DROP exactly when the protocol is TCP, the
20-byte TCP header at offset 14 + IHL*4 fits in the buffer, bit 0x02 of its flags byte is
set, and the IP table holds, before this packet is recorded, an entry for the source whose
`syn_count` is above 1000.  No entry, a count of exactly 1000, UDP, ICMP, any other
protocol and TCP without SYN all give XDP_PASS. -/
theorem xdp_ddos_filter_drop_iff (v : Variant) (env : Env) (st : State) (pkt : List Nat)
    (h34 : 34 ≤ pkt.length) (hp : eth_proto pkt = 0x0800)
    (hbl : bpf_map_lookup_elem st.blacklist_map (ip_saddr pkt) = none) :
    ∃ action st', xdp_ddos_filter v env st pkt = some (action, st') ∧
      (action = XDP_DROP ∨ action = XDP_PASS) ∧
      (action = XDP_DROP ↔
        (ip_protocol pkt = IPPROTO_TCP ∧ 14 + ip_ihl pkt * 4 + 20 ≤ pkt.length ∧
          tcp_flag_byte pkt &&& 0x02 ≠ 0 ∧
          ∃ e, bpf_map_lookup_elem st.ip_tracking_map (ip_saddr pkt) = some e ∧
            e.syn_count > 1000)) := by
  have hbl' := not_blacklisted_of_lookup hbl
  have hcount : stored_syn_count st.ip_tracking_map (ip_saddr pkt) > 1000 ↔
      ∃ e, bpf_map_lookup_elem st.ip_tracking_map (ip_saddr pkt) = some e ∧
        e.syn_count > 1000 := by
    unfold stored_syn_count
    cases bpf_map_lookup_elem st.ip_tracking_map (ip_saddr pkt) <;> simp
  have hpass : ∀ P : Prop, ¬ P → ((XDP_PASS = XDP_DROP) ↔ P) := fun P hP =>
    ⟨fun h => absurd h (by decide), fun h => absurd h hP⟩
  by_cases htcp : ip_protocol pkt = IPPROTO_TCP
  · by_cases hfit : pkt.length < l4_offset pkt + 20
    · refine ⟨_, _, filter_tcp_short v env st pkt h34 hp hbl' htcp hfit, Or.inr rfl, hpass _ ?_⟩
      rintro ⟨_, h, _⟩
      exact absurd hfit (Nat.not_lt.mpr h)
    · have hfit' : l4_offset pkt + 20 ≤ pkt.length := Nat.le_of_not_lt hfit
      have hr := filter_tcp v env st pkt h34 hp hbl' htcp hfit'
      by_cases hc : tcp_flag_byte pkt &&& 0x02 ≠ 0 ∧
          stored_syn_count st.ip_tracking_map (ip_saddr pkt) > 1000
      · rw [if_pos hc] at hr
        exact ⟨_, _, hr, Or.inl rfl, fun _ => ⟨htcp, hfit', hc.1, hcount.mp hc.2⟩, fun _ => rfl⟩
      · rw [if_neg hc] at hr
        refine ⟨_, _, hr, Or.inr rfl, hpass _ ?_⟩
        rintro ⟨_, _, h1, h2⟩
        exact hc ⟨h1, hcount.mpr h2⟩
  · have hno : ¬ (ip_protocol pkt = IPPROTO_TCP ∧ 14 + ip_ihl pkt * 4 + 20 ≤ pkt.length ∧
        tcp_flag_byte pkt &&& 0x02 ≠ 0 ∧
        ∃ e, bpf_map_lookup_elem st.ip_tracking_map (ip_saddr pkt) = some e ∧
          e.syn_count > 1000) := fun h => htcp h.1
    by_cases hudp : ip_protocol pkt = IPPROTO_UDP
    · by_cases hfit : pkt.length < l4_offset pkt + 8
      · exact ⟨_, _, filter_udp_short v env st pkt h34 hp hbl' hudp hfit, Or.inr rfl,
          hpass _ hno⟩
      · exact ⟨_, _, filter_udp v env st pkt h34 hp hbl' hudp (Nat.le_of_not_lt hfit),
          Or.inr rfl, hpass _ hno⟩
    · exact ⟨_, _, filter_other v env st pkt h34 hp hbl' htcp hudp, Or.inr rfl, hpass _ hno⟩

/-- C7, at a source whose stored `syn_count` is 1001: its TCP SYN is dropped, its TCP ACK is
passed. -/
theorem xdp_ddos_filter_drop_iff_witness :
    34 ≤ frame_syn.length ∧ eth_proto frame_syn = 0x0800 ∧
    bpf_map_lookup_elem st_flooded.blacklist_map (ip_saddr frame_syn) = none ∧
    (∃ st', xdp_ddos_filter Variant.libbpf env_cpu0 st_flooded frame_syn =
      some (XDP_DROP, st')) ∧
    (∃ st', xdp_ddos_filter Variant.libbpf env_cpu0 st_flooded frame_ack =
      some (XDP_PASS, st')) := by
  obtain ⟨a, st', h, _, hiff⟩ :=
    xdp_ddos_filter_drop_iff Variant.libbpf env_cpu0 st_flooded frame_syn
      (by decide) (by decide) (by decide)
  have ha : a = XDP_DROP :=
    hiff.mpr ⟨by decide, by decide, by decide, ⟨1001, 54054, 99, 1, 1001, 0⟩, by decide,
      by decide⟩
  obtain ⟨b, st2, h2, hor, hiff2⟩ :=
    xdp_ddos_filter_drop_iff Variant.libbpf env_cpu0 st_flooded frame_ack
      (by decide) (by decide) (by decide)
  have hb : b = XDP_PASS := by
    rcases hor with hd | hpass
    · exact absurd (hiff2.mp hd).2.2.1 (by decide)
    · exact hpass
  exact ⟨by decide, by decide, by decide, ⟨st', ha ▸ h⟩, ⟨st2, hb ▸ h2⟩⟩

/-! ## The configuration record -/

/-- C9, refuted as stated: with `blacklist_enabled = 0` in the configuration record, a
well-formed UDP datagram from the blacklisted 10.0.0.1 is dropped and reaches neither the IP
table nor the flow table, whereas with an empty blacklist the same datagram is passed and
tracked. -/
theorem blacklist_enabled_is_not_consulted :
    st_banned_off.config_map.blacklist_enabled = 0 ∧
    bpf_map_lookup_elem st_banned_off.blacklist_map (ip_saddr frame_udp) = some 7 ∧
    (xdp_ddos_filter Variant.libbpf env_cpu0 st_banned_off frame_udp).map Prod.fst =
      some XDP_DROP ∧
    (xdp_ddos_filter Variant.libbpf env_cpu0 st_banned_off frame_udp).map
      (fun r => r.2.ip_tracking_map) = some [] ∧
    (xdp_ddos_filter Variant.libbpf env_cpu0 { st_banned_off with blacklist_map := [] }
      frame_udp).map Prod.fst = some XDP_PASS ∧
    (xdp_ddos_filter Variant.libbpf env_cpu0 { st_banned_off with blacklist_map := [] }
      frame_udp).map (fun r => r.2.ip_tracking_map) =
      some [(ip_10_0_0_1, ⟨1, 42, 100, 1, 0, 1⟩)] :=
  ⟨by decide, by decide, by decide, by decide, by decide, by decide⟩

/-- C9, amended: the program does not read the configuration record, so `blacklist_enabled`
has no effect.  Whatever the record holds (`blacklist_enabled = 0` included), an IPv4 frame
of at least 34 bytes whose source IP has a blacklist entry is dropped; it is counted as
dropped in the statistics of the calling CPU, the IP table, the flow table and the
blacklist are as before the call, and the configuration record is not written. -/
theorem xdp_ddos_filter_blacklist_not_gated (v : Variant) (env : Env) (st : State)
    (pkt : List Nat) (c : config) (ts : Nat) (h34 : 34 ≤ pkt.length)
    (hp : eth_proto pkt = 0x0800)
    (hbl : bpf_map_lookup_elem st.blacklist_map (ip_saddr pkt) = some ts) :
    ∃ st', xdp_ddos_filter v env { st with config_map := c } pkt = some (XDP_DROP, st') ∧
      st'.config_map = c ∧
      st'.ip_tracking_map = st.ip_tracking_map ∧ st'.flow_map = st.flow_map ∧
      st'.blacklist_map = st.blacklist_map ∧
      (st'.stats_map env.cpu).dropped_packets
        = ((st.stats_map env.cpu).dropped_packets + 1) % 2 ^ 64 ∧
      (st'.stats_map env.cpu).passed_packets = (st.stats_map env.cpu).passed_packets := by
  have hb : is_blacklisted ({ st with config_map := c } : State).blacklist_map (ip_saddr pkt)
      = true := is_blacklisted_of_lookup hbl
  obtain ⟨r, hr, _, _, h3, _, h5, _⟩ :=
    update_stats_drop (st.stats_map env.cpu) (pkt.length % 2 ^ 64) (ip_protocol pkt)
  refine ⟨_, filter_blacklisted v env { st with config_map := c } pkt h34 hp hb,
    rfl, rfl, rfl, rfl, ?_⟩
  simp only [hr, stats_map_store, Function.update_same]
  exact ⟨h3, h5⟩

/-- C9 amended, at a UDP datagram from the blacklisted 10.0.0.1 with `blacklist_enabled = 0`. -/
theorem xdp_ddos_filter_blacklist_not_gated_witness :
    (⟨0, 0, 0, 0⟩ : config).blacklist_enabled = 0 ∧
    bpf_map_lookup_elem st_banned.blacklist_map (ip_saddr frame_udp) = some 7 ∧
    ∃ st', xdp_ddos_filter Variant.libbpf env_cpu0
        { st_banned with config_map := ⟨0, 0, 0, 0⟩ } frame_udp = some (XDP_DROP, st') ∧
      st'.ip_tracking_map = [] ∧ (st'.stats_map 0).dropped_packets = 1 := by
  obtain ⟨st', h, _, hi, _, _, hd, _⟩ :=
    xdp_ddos_filter_blacklist_not_gated Variant.libbpf env_cpu0 st_banned frame_udp
      ⟨0, 0, 0, 0⟩ 7 (by decide) (by decide) (by decide)
  exact ⟨rfl, by decide, st', h, hi, hd⟩

/-! ## Transport header missing or not parsed -/

theorem two_pow_counter_bits (v : Variant) : 65536 ≤ 2 ^ v.counter_bits := by
  cases v <;> simp [Variant.counter_bits]

/-- One well-formed TCP SYN from a source without a blacklist entry: the action depends on
the stored `syn_count` alone, the blacklist stays, and afterwards the source has an entry
whose `syn_count` is one more (modulo the width of the field) than before. -/
theorem syn_step (v : Variant) (env : Env) (st : State) (pkt : List Nat) (ip : Nat)
    (hs : tcp_syn_from ip pkt) (hbl : bpf_map_lookup_elem st.blacklist_map ip = none)
    (hroom : v.lru = true ∨ st.ip_tracking_map.length < MAX_IPS ∨
      bpf_map_lookup_elem st.ip_tracking_map ip ≠ none) :
    ∃ st', xdp_ddos_filter v env st pkt =
        some (if stored_syn_count st.ip_tracking_map ip > 1000 then XDP_DROP else XDP_PASS,
          st') ∧
      st'.blacklist_map = st.blacklist_map ∧
      ∃ e', bpf_map_lookup_elem st'.ip_tracking_map ip = some e' ∧
        e'.syn_count = (match bpf_map_lookup_elem st.ip_tracking_map ip with
          | some e => (e.syn_count + 1) % 2 ^ v.counter_bits
          | none => 1) := by
  obtain ⟨h34, hp, hsrc, htcp, hfit, hsyn⟩ := hs
  subst hsrc
  have hr := filter_tcp v env st pkt h34 hp (not_blacklisted_of_lookup hbl) htcp hfit
  have hcond : (tcp_flag_byte pkt &&& 0x02 ≠ 0 ∧
      stored_syn_count st.ip_tracking_map (ip_saddr pkt) > 1000) ↔
      stored_syn_count st.ip_tracking_map (ip_saddr pkt) > 1000 :=
    ⟨fun h => h.2, fun h => ⟨hsyn, h⟩⟩
  simp only [hcond] at hr
  refine ⟨_, hr, rfl, ?_⟩
  simp only [update_tracking]
  cases hl : bpf_map_lookup_elem st.ip_tracking_map (ip_saddr pkt) with
  | some e =>
    obtain ⟨e', he', _, _, _, _, hsc, _⟩ := update_ip_stats_present v env.now_ip env.ip_victim
      st.ip_tracking_map (ip_saddr pkt) (pkt.length % 2 ^ 64) (ip_protocol pkt)
      (tcp_flag_byte pkt) e hl
    rw [if_pos ⟨htcp, hsyn⟩] at hsc
    exact ⟨e', he', hsc⟩
  | none =>
    have hroom' : v.lru = true ∨ st.ip_tracking_map.length < MAX_IPS := by
      rcases hroom with h | h | h
      · exact Or.inl h
      · exact Or.inr h
      · exact absurd hl h
    have := update_ip_stats_absent v env.now_ip env.ip_victim st.ip_tracking_map
      (ip_saddr pkt) (pkt.length % 2 ^ 64) (ip_protocol pkt) (tcp_flag_byte pkt) hl hroom'
    refine ⟨_, this, ?_⟩
    simp only [if_pos (And.intro htcp hsyn)]

/-- A sequence of well-formed TCP SYN packets from one source without a blacklist entry,
from a state in which the stored `syn_count` of the source is `c`: packet `i` (counted from
0) is dropped exactly when `(c + i) % 2 ^ w` is above 1000, for `w` the width of
`syn_count`. -/
theorem run_syn (v : Variant) (ip : Nat) :
    ∀ (ps : List (Env × List Nat)) (st : State) (c : Nat),
      (∀ p ∈ ps, tcp_syn_from ip p.2) →
      bpf_map_lookup_elem st.blacklist_map ip = none →
      c < 2 ^ v.counter_bits →
      ((∃ e, bpf_map_lookup_elem st.ip_tracking_map ip = some e ∧ e.syn_count = c) ∨
        (bpf_map_lookup_elem st.ip_tracking_map ip = none ∧ c = 0 ∧
          (v.lru = true ∨ st.ip_tracking_map.length < MAX_IPS))) →
      ∃ st', run_packets v st ps =
        some ((List.range ps.length).map
          (fun i => if (c + i) % 2 ^ v.counter_bits > 1000 then XDP_DROP else XDP_PASS), st')
  | [], st, c, _, _, _, _ => ⟨st, rfl⟩
  | (env, pkt) :: rest, st, c, hsyn, hbl, hc, hinv => by
    have hroom : v.lru = true ∨ st.ip_tracking_map.length < MAX_IPS ∨
        bpf_map_lookup_elem st.ip_tracking_map ip ≠ none := by
      rcases hinv with ⟨e, he, _⟩ | ⟨_, _, h | h⟩
      · exact Or.inr (Or.inr (by simp [he]))
      · exact Or.inl h
      · exact Or.inr (Or.inl h)
    have hcount : stored_syn_count st.ip_tracking_map ip = c := by
      rcases hinv with ⟨e, he, hec⟩ | ⟨hn, h0, _⟩
      · simp [stored_syn_count, he, hec]
      · simp [stored_syn_count, hn, h0]
    obtain ⟨st1, h1, hbl1, e', he', hsc⟩ :=
      syn_step v env st pkt ip (hsyn (env, pkt) (List.mem_cons_self _ _)) hbl hroom
    have hpow := two_pow_counter_bits v
    have hc' : (c + 1) % 2 ^ v.counter_bits < 2 ^ v.counter_bits :=
      Nat.mod_lt _ (by omega)
    have hsc' : e'.syn_count = (c + 1) % 2 ^ v.counter_bits := by
      rcases hinv with ⟨e, he, hec⟩ | ⟨hn, h0, _⟩
      · rw [hsc, he]
        simp only [hec]
      · rw [hsc, hn, h0]
        simp only [Nat.zero_add]
        exact (Nat.mod_eq_of_lt (by omega)).symm
    obtain ⟨st2, h2⟩ := run_syn v ip rest st1 ((c + 1) % 2 ^ v.counter_bits)
      (fun p hp => hsyn p (List.mem_cons_of_mem _ hp)) (hbl1 ▸ hbl) hc'
      (Or.inl ⟨e', he', hsc'⟩)
    refine ⟨st2, ?_⟩
    simp only [run_packets, h1, Option.some_bind, h2, Option.map_some', hcount,
      List.length_cons, List.range_succ_eq_map, List.map_cons, List.map_map]
    have h0 : (c + 0) % 2 ^ v.counter_bits = c := Nat.mod_eq_of_lt hc
    rw [h0]
    congr 3
    apply List.map_congr_left
    intro i _
    simp only [Function.comp, Nat.mod_add_mod, Nat.succ_eq_add_one]
    rw [show c + 1 + i = c + (i + 1) by omega]

theorem syn_actions_eq (w n : Nat) (hw : 65536 ≤ 2 ^ w) (hn : n ≤ 1002) :
    (List.range n).map (fun i => if (0 + i) % 2 ^ w > 1000 then XDP_DROP else XDP_PASS) =
      List.replicate (min n 1001) XDP_PASS ++ List.replicate (n - 1001) XDP_DROP := by
  apply List.ext_getElem
  · simp only [List.length_map, List.length_range, List.length_append, List.length_replicate]
    omega
  · intro i h1 h2
    simp only [List.length_map, List.length_range] at h1
    have hi : (0 + i) % 2 ^ w = i := by
      rw [Nat.zero_add]; exact Nat.mod_eq_of_lt (by omega)
    simp only [List.getElem_map, List.getElem_range, hi, List.getElem_append,
      List.length_replicate, List.getElem_replicate]
    by_cases h : i > 1000
    · have h' : ¬ i < min n 1001 := by omega
      simp only [if_pos h, dif_neg h']
    · have h' : i < min n 1001 := by omega
      simp only [if_neg h, dif_pos h']

/-- C8, refuted as stated: with every field of the configuration record set to 3, five
well-formed TCP SYN packets from a fresh source that is not blacklisted are all passed; the
fifth is not dropped. -/
theorem five_syns_all_passed_with_threshold_three :
    st_config3.config_map = ⟨3, 3, 3, 3⟩ ∧
    tcp_syn_from ip_10_0_0_1 frame_syn ∧
    bpf_map_lookup_elem st_config3.blacklist_map ip_10_0_0_1 = none ∧
    bpf_map_lookup_elem st_config3.ip_tracking_map ip_10_0_0_1 = none ∧
    (run_packets Variant.libbpf st_config3 (List.replicate 5 (env_cpu0, frame_syn))).map
      Prod.fst = some [XDP_PASS, XDP_PASS, XDP_PASS, XDP_PASS, XDP_PASS] :=
  ⟨rfl, by decide, by decide, by decide, by decide⟩

/-- C8, amended: the threshold is the constant 1000 of the program, not a field of the
configuration record (which has no `syn_flood_threshold` and is not read).  From an IP
table with no entry for a source that is not blacklisted, whatever the configuration
holds, a sequence of at most 1002 well-formed TCP SYN packets from that source (LRU maps,
or room in the IP table) gets XDP_PASS for packets 1 to 1001 and XDP_DROP for packet 1002;
five SYN packets get five times XDP_PASS. -/
theorem syn_flood_first_drop (v : Variant) (st : State) (ps : List (Env × List Nat))
    (ip : Nat) (hsyn : ∀ p ∈ ps, tcp_syn_from ip p.2)
    (hbl : bpf_map_lookup_elem st.blacklist_map ip = none)
    (habs : bpf_map_lookup_elem st.ip_tracking_map ip = none)
    (hroom : v = Variant.libbpf ∨ st.ip_tracking_map.length < MAX_IPS)
    (hlen : ps.length ≤ 1002) :
    ∃ st', run_packets v st ps =
      some (List.replicate (min ps.length 1001) XDP_PASS ++
        List.replicate (ps.length - 1001) XDP_DROP, st') := by
  have hroom' : v.lru = true ∨ st.ip_tracking_map.length < MAX_IPS := by
    rcases hroom with h | h
    · exact Or.inl (by rw [h]; rfl)
    · exact Or.inr h
  have hpow := two_pow_counter_bits v
  obtain ⟨st', h⟩ := run_syn v ip ps st 0 hsyn hbl (by omega) (Or.inr ⟨habs, rfl, hroom'⟩)
  rw [syn_actions_eq v.counter_bits ps.length hpow hlen] at h
  exact ⟨st', h⟩

/-- C8 amended, at 1002 copies of one SYN frame: 1001 times XDP_PASS, then XDP_DROP. -/
theorem syn_flood_first_drop_witness :
    tcp_syn_from ip_10_0_0_1 frame_syn ∧
    bpf_map_lookup_elem st_config3.blacklist_map ip_10_0_0_1 = none ∧
    bpf_map_lookup_elem st_config3.ip_tracking_map ip_10_0_0_1 = none ∧
    ∃ st', run_packets Variant.libbpf st_config3 (List.replicate 1002 (env_cpu0, frame_syn)) =
      some (List.replicate 1001 XDP_PASS ++ [XDP_DROP], st') := by
  refine ⟨by decide, by decide, by decide, ?_⟩
  have h := syn_flood_first_drop Variant.libbpf st_config3
    (List.replicate 1002 (env_cpu0, frame_syn)) ip_10_0_0_1
    (fun p hp => by rw [(List.mem_replicate.mp hp).2]; decide)
    (by decide) (by decide) (Or.inl rfl) (List.length_replicate _ _).le
  rw [List.length_replicate] at h
  exact h

/-! ## One statement for the tracked paths -/

/-- Every packet that passes the blacklist test goes through `update_tracking`, with the
key, the flag byte and the action its headers determine. -/
theorem filter_tracked (v : Variant) (env : Env) (st : State) (pkt : List Nat)
    (hc : counted pkt) (hbl : is_blacklisted st.blacklist_map (ip_saddr pkt) = false) :
    xdp_ddos_filter v env st pkt = some (update_tracking v env st (some (st.stats_map env.cpu))
      (ip_saddr pkt) (pkt.length % 2 ^ 64) (ip_protocol pkt) (recorded_flags pkt)
      (recorded_key pkt)
      (if recorded_flags pkt &&& 0x02 ≠ 0 ∧
          stored_syn_count st.ip_tracking_map (ip_saddr pkt) > 1000
        then XDP_DROP else XDP_PASS)) := by
  obtain ⟨h34, hp⟩ := hc
  have hz : ¬ ((0 : Nat) &&& 0x02 ≠ 0 ∧
      stored_syn_count st.ip_tracking_map (ip_saddr pkt) > 1000) := fun h => h.1 (by decide)
  have hut : ¬ (IPPROTO_UDP = IPPROTO_TCP) := by decide
  by_cases htcp : ip_protocol pkt = IPPROTO_TCP
  · have hnu : ¬ ip_protocol pkt = IPPROTO_UDP := by rw [htcp]; decide
    by_cases hfit : pkt.length < l4_offset pkt + 20
    · have hnf : ¬ l4_offset pkt + 20 ≤ pkt.length := Nat.not_le.mpr hfit
      have hk : recorded_key pkt = portless_key pkt :=
        if_neg (fun h => h.elim (fun a => hnf a.2) (fun b => hnu b.1))
      have hf : recorded_flags pkt = 0 := if_neg (fun h => hnf h.2)
      rw [hk, hf, if_neg hz]
      exact filter_tcp_short v env st pkt h34 hp hbl htcp hfit
    · have hfit' : l4_offset pkt + 20 ≤ pkt.length := Nat.le_of_not_lt hfit
      have hk : recorded_key pkt = port_key pkt := if_pos (Or.inl ⟨htcp, hfit'⟩)
      have hf : recorded_flags pkt = tcp_flag_byte pkt := if_pos ⟨htcp, hfit'⟩
      rw [hk, hf]
      exact filter_tcp v env st pkt h34 hp hbl htcp hfit'
  · have hf : recorded_flags pkt = 0 := if_neg (fun h => htcp h.1)
    rw [hf, if_neg hz]
    by_cases hudp : ip_protocol pkt = IPPROTO_UDP
    · by_cases hfit : pkt.length < l4_offset pkt + 8
      · have hnf : ¬ l4_offset pkt + 8 ≤ pkt.length := Nat.not_le.mpr hfit
        have hk : recorded_key pkt = portless_key pkt :=
          if_neg (fun h => h.elim (fun a => htcp a.1) (fun b => hnf b.2))
        rw [hk]
        exact filter_udp_short v env st pkt h34 hp hbl hudp hfit
      · have hfit' : l4_offset pkt + 8 ≤ pkt.length := Nat.le_of_not_lt hfit
        have hk : recorded_key pkt = port_key pkt := if_pos (Or.inr ⟨hudp, hfit'⟩)
        rw [hk]
        exact filter_udp v env st pkt h34 hp hbl hudp hfit'
    · have hk : recorded_key pkt = portless_key pkt :=
        if_neg (fun h => h.elim (fun a => htcp a.1) (fun b => hudp b.1))
      rw [hk]
      exact filter_other v env st pkt h34 hp hbl htcp hudp

/-- A packet that is not counted leaves every map as it is. -/
theorem filter_not_counted (v : Variant) (env : Env) (st : State) (pkt : List Nat)
    (hc : ¬ counted pkt) :
    ∃ action, xdp_ddos_filter v env st pkt = some (action, st) ∧
      (action = XDP_DROP ∨ action = XDP_PASS) := by
  by_cases h14 : pkt.length < 14
  · exact ⟨_, filter_short v env st pkt h14, Or.inl rfl⟩
  have h14' : 14 ≤ pkt.length := Nat.le_of_not_lt h14
  by_cases hp : eth_proto pkt = ETH_P_IP
  · have h34 : pkt.length < 34 := by
      by_contra h
      exact hc ⟨Nat.le_of_not_lt h, hp⟩
    exact ⟨_, filter_ip_short v env st pkt h14' hp h34, Or.inl rfl⟩
  · exact ⟨_, filter_non_ip v env st pkt h14' hp, Or.inr rfl⟩

/-! ## A full table -/

theorem lookup_none_of_forall {K V : Type} [DecidableEq K] (m : List (K × V)) (k : K)
    (h : ∀ p ∈ m, p.1 ≠ k) : bpf_map_lookup_elem m k = none := by
  induction m with
  | nil => rfl
  | cons p m ih =>
    obtain ⟨k', v'⟩ := p
    have hk : ¬ k' = k := h (k', v') (List.mem_cons_self _ _)
    simp only [bpf_map_lookup_elem, if_neg hk]
    exact ih (fun q hq => h q (List.mem_cons_of_mem _ hq))

/-- An insertion of a new key into a full plain hash map fails: the map stays as it is. -/
theorem bpf_map_update_elem_full_hash {K V : Type} [DecidableEq K] (cap victim : Nat)
    (m : List (K × V)) (k : K) (v : V) (hl : bpf_map_lookup_elem m k = none)
    (hfull : cap ≤ m.length) : bpf_map_update_elem false cap victim m k v = m := by
  have h : ¬ m.length < cap := Nat.not_lt.mpr hfull
  simp [bpf_map_update_elem, hl, h]

/-- An insertion of a new key into a full LRU map for which the kernel names no victim
reclaims the first entry and appends the new one. -/
theorem bpf_map_update_elem_full_lru {K V : Type} [DecidableEq K] (cap : Nat)
    (m tail : List (K × V)) (k0 : K) (e0 : V) (k : K) (v : V) (hm : m = (k0, e0) :: tail)
    (hl : bpf_map_lookup_elem m k = none) (hfull : cap ≤ m.length) :
    bpf_map_update_elem true cap 0 m k v = lru_evict [k0] m ++ [(k, v)] := by
  have h : ¬ m.length < cap := Nat.not_lt.mpr hfull
  have hroom : lru_make_room cap 0 m = lru_evict [k0] m := by
    unfold lru_make_room
    simp only [lru_victims_zero, lru_evict_nil, if_neg h]
    subst hm
    rfl
  have hk : bpf_map_lookup_elem (lru_evict [k0] m) k = none := by
    rw [lookup_lru_evict, hl, ite_self]
  unfold bpf_map_update_elem
  simp only [if_true, hroom, hk]

theorem flow_table_full_length : flow_table_full.length = MAX_FLOWS := by
  simp only [flow_table_full, List.length_map, List.length_range]

theorem ip_table_full_length : ip_table_full.length = MAX_IPS := by
  simp only [ip_table_full, List.length_map, List.length_range]

theorem flow_table_full_lookup (k : flow_key) (h : 65536 ≤ k.src_ip) :
    bpf_map_lookup_elem flow_table_full k = none := by
  apply lookup_none_of_forall
  intro p hp
  simp only [flow_table_full, List.mem_map, List.mem_range, MAX_FLOWS] at hp
  obtain ⟨i, hi, rfl⟩ := hp
  intro hk
  have : i = k.src_ip := by rw [← hk]
  omega

theorem ip_table_full_lookup (k : Nat) (h : 131072 ≤ k) :
    bpf_map_lookup_elem ip_table_full k = none := by
  apply lookup_none_of_forall
  intro p hp
  simp only [ip_table_full, List.mem_map, List.mem_range, MAX_IPS] at hp
  obtain ⟨i, hi, rfl⟩ := hp
  intro hk
  have : i = k := hk
  omega

theorem update_flow_stats_full_hash (now victim : Nat) (m : List (flow_key × flow_stats))
    (key : flow_key) (bytes tcp_flags : Nat) (hl : bpf_map_lookup_elem m key = none)
    (hfull : MAX_FLOWS ≤ m.length) :
    update_flow_stats Variant.bcc now victim m key bytes tcp_flags = m := by
  unfold update_flow_stats
  simp only [hl]
  exact bpf_map_update_elem_full_hash _ _ _ _ _ hl hfull

theorem update_ip_stats_full_hash (now victim : Nat) (m : List (Nat × ip_stats))
    (src_ip bytes protocol tcp_flags : Nat) (hl : bpf_map_lookup_elem m src_ip = none)
    (hfull : MAX_IPS ≤ m.length) :
    update_ip_stats Variant.bcc now victim m src_ip bytes protocol tcp_flags = m := by
  unfold update_ip_stats
  simp only [hl]
  exact bpf_map_update_elem_full_hash _ _ _ _ _ hl hfull

/-! ## The flow tracker as an upsert -/

theorem lor_byte (f g : Nat) (hf : f < 256) (hg : g < 256) :
    (f ||| g) % 256 = f ||| g ∧ (f ||| g) &&& f = f := by
  have h : f ||| g < 2 ^ 8 := Nat.or_lt_two_pow hf hg
  refine ⟨Nat.mod_eq_of_lt h, ?_⟩
  apply Nat.eq_of_testBit_eq
  intro i
  simp only [Nat.testBit_and, Nat.testBit_or]
  cases f.testBit i <;> simp

/-- What `update_flow_stats` does when it succeeds.  A key without an entry gets the entry
(1, bytes, now, flag byte); an entry (p, b, t, f) becomes (p + 1, b + bytes, now, f OR flag
byte), in the arithmetic of the fields.  With a clock that does not go back `last_seen`
does not decrease, and every flag bit that was set stays set. -/
theorem update_flow_stats_upsert (v : Variant) (now victim : Nat)
    (m : List (flow_key × flow_stats)) (key : flow_key) (bytes tcp_flags : Nat)
    (hnow : now < 2 ^ 64) (hflags : tcp_flags < 256)
    (hroom : v.lru = true ∨ m.length < MAX_FLOWS ∨ bpf_map_lookup_elem m key ≠ none) :
    (bpf_map_lookup_elem m key = none →
      bpf_map_lookup_elem (update_flow_stats v now victim m key bytes tcp_flags) key =
        some ⟨1, bytes, now, tcp_flags⟩) ∧
    (∀ f, bpf_map_lookup_elem m key = some f → f.flags < 256 → f.last_seen ≤ now →
      ∃ f', bpf_map_lookup_elem (update_flow_stats v now victim m key bytes tcp_flags) key =
          some f' ∧
        f'.packets = (f.packets + 1) % 2 ^ 64 ∧ f'.bytes = (f.bytes + bytes) % 2 ^ 64 ∧
        f'.flags = f.flags ||| tcp_flags ∧ f'.last_seen = now ∧
        f.last_seen ≤ f'.last_seen ∧ f'.flags &&& f.flags = f.flags) := by
  have hl := update_flow_stats_lookup v now victim m key bytes tcp_flags hroom
  have hn : now % 2 ^ 64 = now := Nat.mod_eq_of_lt hnow
  constructor
  · intro habs
    rw [hl, habs, hn]
  · intro f hf hfl hts
    obtain ⟨h1, h2⟩ := lor_byte f.flags tcp_flags hfl hflags
    refine ⟨_, hl, ?_⟩
    simp only [hf, hn, h1, h2, add64]
    exact ⟨trivial, trivial, trivial, trivial, hts, trivial⟩

/-- C11, at a full flow table of `xdp_filter.c` (plain `BPF_HASH`): for a key without an
entry `update_flow_stats` leaves the table as it is, and the key still has no entry
afterwards, where the claim has the entry (1, 42, 101, 0).  On the same table the LRU map of
`xdp_maps.h` stores that entry. -/
theorem update_flow_stats_full_table :
    flow_table_full.length = MAX_FLOWS ∧
    bpf_map_lookup_elem flow_table_full (port_key frame_udp) = none ∧
    update_flow_stats Variant.bcc 101 0 flow_table_full (port_key frame_udp) 42 0 =
      flow_table_full ∧
    bpf_map_lookup_elem
      (update_flow_stats Variant.bcc 101 0 flow_table_full (port_key frame_udp) 42 0)
      (port_key frame_udp) = none ∧
    bpf_map_lookup_elem
      (update_flow_stats Variant.libbpf 101 0 flow_table_full (port_key frame_udp) 42 0)
      (port_key frame_udp) = some ⟨1, 42, 101, 0⟩ := by
  have habs : bpf_map_lookup_elem flow_table_full (port_key frame_udp) = none :=
    flow_table_full_lookup _ (by decide)
  have hfull := update_flow_stats_full_hash 101 0 flow_table_full (port_key frame_udp) 42 0
    habs (Nat.le_of_eq flow_table_full_length.symm)
  refine ⟨flow_table_full_length, habs, hfull, ?_, ?_⟩
  · rw [hfull]; exact habs
  · exact (update_flow_stats_upsert Variant.libbpf 101 0 flow_table_full
      (port_key frame_udp) 42 0 (by decide) (by decide) (Or.inl rfl)).1 habs

/-! ## The IP tracker as an upsert -/

/-- What `update_ip_stats` does when it succeeds.  A source without an entry gets a new one
whose `syn_count` and `udp_count` are 1 or 0; an existing entry has `packets` grown by 1,
`bytes` by the byte count, `syn_count` by 1 exactly for a TCP packet with bit 0x02 set and
`udp_count` by 1 exactly for a UDP packet, in the arithmetic of the fields. -/
theorem update_ip_stats_upsert (v : Variant) (now victim : Nat) (m : List (Nat × ip_stats))
    (src_ip bytes protocol tcp_flags : Nat)
    (hroom : v.lru = true ∨ m.length < MAX_IPS ∨ bpf_map_lookup_elem m src_ip ≠ none) :
    (bpf_map_lookup_elem m src_ip = none →
      ∃ e', bpf_map_lookup_elem
          (update_ip_stats v now victim m src_ip bytes protocol tcp_flags) src_ip = some e' ∧
        e'.packets = 1 ∧ e'.bytes = bytes ∧
        e'.syn_count = (if protocol = IPPROTO_TCP ∧ tcp_flags &&& 0x02 ≠ 0 then 1 else 0) ∧
        e'.udp_count = (if protocol = IPPROTO_UDP then 1 else 0)) ∧
    (∀ e, bpf_map_lookup_elem m src_ip = some e →
      ∃ e', bpf_map_lookup_elem
          (update_ip_stats v now victim m src_ip bytes protocol tcp_flags) src_ip = some e' ∧
        e'.packets = (e.packets + 1) % 2 ^ 64 ∧ e'.bytes = (e.bytes + bytes) % 2 ^ 64 ∧
        e'.syn_count = (if protocol = IPPROTO_TCP ∧ tcp_flags &&& 0x02 ≠ 0
          then (e.syn_count + 1) % 2 ^ v.counter_bits else e.syn_count) ∧
        e'.udp_count = (if protocol = IPPROTO_UDP
          then (e.udp_count + 1) % 2 ^ v.counter_bits else e.udp_count)) := by
  constructor
  · intro habs
    have hroom' : v.lru = true ∨ m.length < MAX_IPS := by
      rcases hroom with h | h | h
      · exact Or.inl h
      · exact Or.inr h
      · exact absurd habs h
    exact ⟨_, update_ip_stats_absent v now victim m src_ip bytes protocol tcp_flags habs
      hroom', rfl, rfl, rfl, rfl⟩
  · intro e he
    obtain ⟨e', he', h1, h2, _, _, h5, h6⟩ :=
      update_ip_stats_present v now victim m src_ip bytes protocol tcp_flags e he
    refine ⟨e', he', h1, h2, h5, ?_⟩
    rw [h6]
    by_cases hu : protocol = IPPROTO_UDP
    · have hs : ¬ (protocol = IPPROTO_TCP ∧ tcp_flags &&& 0x02 ≠ 0) := by
        rw [hu]; exact fun h => absurd h.1 (by decide)
      rw [if_pos ⟨hs, hu⟩, if_pos hu]
    · rw [if_neg (fun h => hu h.2), if_neg hu]

/-- C12, at a full IP table of `xdp_filter.c` (plain `BPF_HASH`): for a TCP SYN of a source
without an entry `update_ip_stats` leaves the table as it is, and the source still has no
entry afterwards, where the claim has an entry with `packets = 1`, `bytes = 54` and
`syn_count = 1`.  On the same table the LRU map of `xdp_maps.h` stores that entry. -/
theorem update_ip_stats_full_table :
    ip_table_full.length = MAX_IPS ∧
    bpf_map_lookup_elem ip_table_full ip_10_0_0_1 = none ∧
    update_ip_stats Variant.bcc 100 0 ip_table_full ip_10_0_0_1 54 IPPROTO_TCP 2 =
      ip_table_full ∧
    bpf_map_lookup_elem
      (update_ip_stats Variant.bcc 100 0 ip_table_full ip_10_0_0_1 54 IPPROTO_TCP 2)
      ip_10_0_0_1 = none ∧
    bpf_map_lookup_elem
      (update_ip_stats Variant.libbpf 100 0 ip_table_full ip_10_0_0_1 54 IPPROTO_TCP 2)
      ip_10_0_0_1 = some ⟨1, 54, 100, 1, 1, 0⟩ := by
  have habs : bpf_map_lookup_elem ip_table_full ip_10_0_0_1 = none :=
    ip_table_full_lookup _ (by decide)
  have hfull := update_ip_stats_full_hash 100 0 ip_table_full ip_10_0_0_1 54 IPPROTO_TCP 2
    habs (Nat.le_of_eq ip_table_full_length.symm)
  refine ⟨ip_table_full_length, habs, hfull, ?_, ?_⟩
  · rw [hfull]; exact habs
  · exact update_ip_stats_absent Variant.libbpf 100 0 ip_table_full ip_10_0_0_1 54
      IPPROTO_TCP 2 habs (Or.inl rfl)

/-! ## Entries of other keys -/

theorem lookup_append_other {K V : Type} [DecidableEq K] (m : List (K × V)) (k k2 : K)
    (v : V) (h : k2 ≠ k) :
    bpf_map_lookup_elem (m ++ [(k, v)]) k2 = bpf_map_lookup_elem m k2 := by
  induction m with
  | nil =>
    have hk : ¬ k = k2 := fun e => h e.symm
    simp only [List.nil_append, bpf_map_lookup_elem, if_neg hk]
  | cons p m ih =>
    obtain ⟨k', v'⟩ := p
    by_cases hk : k' = k2
    · simp only [List.cons_append, bpf_map_lookup_elem, if_pos hk]
    · simp only [List.cons_append, bpf_map_lookup_elem, if_neg hk]
      exact ih

/-- Without an eviction `bpf_map_update_elem` leaves the entry of every other key as it is. -/
theorem lookup_update_elem_other {K V : Type} [DecidableEq K] (lru : Bool)
    (cap victim : Nat) (m : List (K × V)) (k k2 : K) (v : V) (h : k2 ≠ k)
    (hne : lru = false ∨ lru_make_room cap victim m = m) :
    bpf_map_lookup_elem (bpf_map_update_elem lru cap victim m k v) k2 =
      bpf_map_lookup_elem m k2 := by
  unfold bpf_map_update_elem
  cases lru with
  | true =>
    have hm : lru_make_room cap victim m = m := by
      rcases hne with h1 | h1
      · exact absurd h1 (by decide)
      · exact h1
    simp only [if_true, hm]
    cases bpf_map_lookup_elem m k with
    | some e =>
      simp only
      exact lookup_map_store_other m k k2 v h
    | none =>
      simp only
      exact lookup_append_other m k k2 v h
  | false =>
    simp only [Bool.false_eq_true, if_false]
    cases bpf_map_lookup_elem m k with
    | some e =>
      simp only
      exact lookup_map_store_other m k k2 v h
    | none =>
      simp only
      by_cases hroom : m.length < cap
      · rw [if_pos hroom]; exact lookup_append_other m k k2 v h
      · rw [if_neg hroom]

/-- Whatever is evicted, `bpf_map_update_elem` never alters the entry of another key: it is
as before, or it is gone. -/
theorem lookup_update_elem_other_or_gone {K V : Type} [DecidableEq K] (lru : Bool)
    (cap victim : Nat) (m : List (K × V)) (k k2 : K) (v : V) (h : k2 ≠ k) :
    bpf_map_lookup_elem (bpf_map_update_elem lru cap victim m k v) k2 =
      bpf_map_lookup_elem m k2 ∨
    bpf_map_lookup_elem (bpf_map_update_elem lru cap victim m k v) k2 = none := by
  cases lru with
  | false => exact Or.inl (lookup_update_elem_other false cap victim m k k2 v h (Or.inl rfl))
  | true =>
    have hr := lookup_lru_make_room cap victim m k2
    have he : bpf_map_lookup_elem (bpf_map_update_elem true cap victim m k v) k2 =
        bpf_map_lookup_elem (lru_make_room cap victim m) k2 := by
      unfold bpf_map_update_elem
      simp only [if_true]
      cases bpf_map_lookup_elem (lru_make_room cap victim m) k with
      | some e =>
        simp only
        exact lookup_map_store_other _ k k2 v h
      | none =>
        simp only
        exact lookup_append_other _ k k2 v h
    rw [he]
    exact hr

theorem update_ip_stats_other (v : Variant) (now victim : Nat) (m : List (Nat × ip_stats))
    (src_ip bytes protocol tcp_flags k2 : Nat) (h : k2 ≠ src_ip)
    (hne : reclaims_nothing v.lru MAX_IPS victim m src_ip) :
    bpf_map_lookup_elem (update_ip_stats v now victim m src_ip bytes protocol tcp_flags) k2 =
      bpf_map_lookup_elem m k2 := by
  unfold update_ip_stats
  cases hl : bpf_map_lookup_elem m src_ip with
  | some e =>
    simp only
    exact lookup_map_store_other m src_ip k2 _ h
  | none =>
    simp only
    refine lookup_update_elem_other _ _ _ _ _ _ _ h ?_
    rcases hne with h1 | h1 | h1
    · exact Or.inl h1
    · exact absurd hl h1
    · exact Or.inr h1

theorem update_flow_stats_other (v : Variant) (now victim : Nat)
    (m : List (flow_key × flow_stats)) (key : flow_key) (bytes tcp_flags : Nat)
    (k2 : flow_key) (h : k2 ≠ key)
    (hne : reclaims_nothing v.lru MAX_FLOWS victim m key) :
    bpf_map_lookup_elem (update_flow_stats v now victim m key bytes tcp_flags) k2 =
      bpf_map_lookup_elem m k2 := by
  unfold update_flow_stats
  cases hl : bpf_map_lookup_elem m key with
  | some e =>
    simp only
    exact lookup_map_store_other m key k2 _ h
  | none =>
    simp only
    refine lookup_update_elem_other _ _ _ _ _ _ _ h ?_
    rcases hne with h1 | h1 | h1
    · exact Or.inl h1
    · exact absurd hl h1
    · exact Or.inr h1

/-- Whatever is evicted, `update_ip_stats` never alters the entry of another source: it is
as before, or it is gone. -/
theorem update_ip_stats_other_or_gone (v : Variant) (now victim : Nat)
    (m : List (Nat × ip_stats)) (src_ip bytes protocol tcp_flags k2 : Nat)
    (h : k2 ≠ src_ip) :
    bpf_map_lookup_elem (update_ip_stats v now victim m src_ip bytes protocol tcp_flags) k2 =
      bpf_map_lookup_elem m k2 ∨
    bpf_map_lookup_elem (update_ip_stats v now victim m src_ip bytes protocol tcp_flags) k2 =
      none := by
  unfold update_ip_stats
  cases hl : bpf_map_lookup_elem m src_ip with
  | some e =>
    simp only
    exact Or.inl (lookup_map_store_other m src_ip k2 _ h)
  | none =>
    simp only
    exact lookup_update_elem_other_or_gone _ _ _ _ _ _ _ h

/-- Whatever is evicted, `update_flow_stats` never alters the entry of another flow key: it
is as before, or it is gone. -/
theorem update_flow_stats_other_or_gone (v : Variant) (now victim : Nat)
    (m : List (flow_key × flow_stats)) (key : flow_key) (bytes tcp_flags : Nat)
    (k2 : flow_key) (h : k2 ≠ key) :
    bpf_map_lookup_elem (update_flow_stats v now victim m key bytes tcp_flags) k2 =
      bpf_map_lookup_elem m k2 ∨
    bpf_map_lookup_elem (update_flow_stats v now victim m key bytes tcp_flags) k2 = none := by
  unfold update_flow_stats
  cases hl : bpf_map_lookup_elem m key with
  | some e =>
    simp only
    exact Or.inl (lookup_map_store_other m key k2 _ h)
  | none =>
    simp only
    exact lookup_update_elem_other_or_gone _ _ _ _ _ _ _ h

/-- An entry that is still there after a run in which entries are only removed, never
altered, is the entry of before. -/
theorem same_of_no_eviction {K V : Type} [DecidableEq K] (before after : List (K × V))
    (k : K) (hne : no_eviction before after)
    (h : bpf_map_lookup_elem after k = bpf_map_lookup_elem before k ∨
      bpf_map_lookup_elem after k = none) :
    bpf_map_lookup_elem after k = bpf_map_lookup_elem before k := by
  rcases h with h | h
  · exact h
  · by_cases hb : bpf_map_lookup_elem before k = none
    · rw [h, hb]
    · exact absurd h (hne k hb)

/-- When recording the source reclaims nothing, no source loses its entry. -/
theorem update_ip_stats_no_eviction (v : Variant) (now victim : Nat)
    (m : List (Nat × ip_stats)) (src_ip bytes protocol tcp_flags : Nat)
    (hne : reclaims_nothing v.lru MAX_IPS victim m src_ip) :
    no_eviction m (update_ip_stats v now victim m src_ip bytes protocol tcp_flags) := by
  intro k hk
  by_cases h : k = src_ip
  · subst h
    cases he : bpf_map_lookup_elem m k with
    | none => exact absurd he hk
    | some e =>
      obtain ⟨e', he', _⟩ := update_ip_stats_present v now victim m k bytes protocol
        tcp_flags e he
      rw [he']
      exact Option.some_ne_none _
  · rw [update_ip_stats_other v now victim m src_ip bytes protocol tcp_flags k h hne]
    exact hk

/-- When recording the flow key reclaims nothing, no flow key loses its entry. -/
theorem update_flow_stats_no_eviction (v : Variant) (now victim : Nat)
    (m : List (flow_key × flow_stats)) (key : flow_key) (bytes tcp_flags : Nat)
    (hne : reclaims_nothing v.lru MAX_FLOWS victim m key) :
    no_eviction m (update_flow_stats v now victim m key bytes tcp_flags) := by
  intro k hk
  by_cases h : k = key
  · subst h
    rw [update_flow_stats_lookup v now victim m k bytes tcp_flags (Or.inr (Or.inr hk))]
    exact Option.some_ne_none _
  · rw [update_flow_stats_other v now victim m key bytes tcp_flags k h hne]
    exact hk

/-! ## The size of a table -/

theorem map_store_length {K V : Type} [DecidableEq K] (m : List (K × V)) (k : K) (v : V) :
    (map_store m k v).length = m.length := by
  induction m with
  | nil => rfl
  | cons p m ih =>
    obtain ⟨k', v'⟩ := p
    by_cases hk : k' = k
    · simp only [map_store, if_pos hk, List.length_cons]
    · simp only [map_store, if_neg hk, List.length_cons, ih]

/-- A table within its capacity stays within its capacity. -/
theorem bpf_map_update_elem_length {K V : Type} [DecidableEq K] (lru : Bool)
    (cap victim : Nat) (m : List (K × V)) (k : K) (v : V) (hcap : 0 < cap)
    (h : m.length ≤ cap) : (bpf_map_update_elem lru cap victim m k v).length ≤ cap := by
  unfold bpf_map_update_elem
  cases lru with
  | true =>
    have hr := lru_make_room_length cap victim m hcap h
    simp only [if_true]
    cases bpf_map_lookup_elem (lru_make_room cap victim m) k with
    | some e =>
      simp only
      rw [map_store_length]; omega
    | none =>
      simp only [List.length_append, List.length_cons, List.length_nil]
      omega
  | false =>
    simp only [Bool.false_eq_true, if_false]
    cases bpf_map_lookup_elem m k with
    | some e =>
      simp only
      rw [map_store_length]; exact h
    | none =>
      simp only
      by_cases hroom : m.length < cap
      · rw [if_pos hroom]
        simp only [List.length_append, List.length_cons, List.length_nil]
        omega
      · rw [if_neg hroom]; exact h

theorem update_ip_stats_length (v : Variant) (now victim : Nat) (m : List (Nat × ip_stats))
    (src_ip bytes protocol tcp_flags : Nat) (h : m.length ≤ MAX_IPS) :
    (update_ip_stats v now victim m src_ip bytes protocol tcp_flags).length ≤ MAX_IPS := by
  unfold update_ip_stats
  cases bpf_map_lookup_elem m src_ip with
  | some e =>
    simp only
    rw [map_store_length]; exact h
  | none =>
    simp only
    exact bpf_map_update_elem_length _ _ _ _ _ _ (by decide) h

theorem update_flow_stats_length (v : Variant) (now victim : Nat)
    (m : List (flow_key × flow_stats)) (key : flow_key) (bytes tcp_flags : Nat)
    (h : m.length ≤ MAX_FLOWS) :
    (update_flow_stats v now victim m key bytes tcp_flags).length ≤ MAX_FLOWS := by
  unfold update_flow_stats
  cases bpf_map_lookup_elem m key with
  | some e =>
    simp only
    rw [map_store_length]; exact h
  | none =>
    simp only
    exact bpf_map_update_elem_length _ _ _ _ _ _ (by decide) h

/-! ## The effect of one run -/

/-- Every run yields an action and new maps.  The blacklist and the configuration are never
written; a packet that is not counted changes nothing; a counted packet goes through
`update_stats` on the record of the calling CPU; a counted packet of a blacklisted source
leaves the IP and flow tables alone, and any other counted packet goes through
`update_ip_stats` and `update_flow_stats` with its recorded key and flag byte. -/
theorem filter_effect (v : Variant) (env : Env) (st : State) (pkt : List Nat) :
    ∃ action st', xdp_ddos_filter v env st pkt = some (action, st') ∧
      (action = XDP_DROP ∨ action = XDP_PASS) ∧
      st'.blacklist_map = st.blacklist_map ∧ st'.config_map = st.config_map ∧
      (¬ counted pkt → st' = st) ∧
      (counted pkt → st'.stats_map = stats_map_store st.stats_map env.cpu
        (update_stats (some (st.stats_map env.cpu)) (pkt.length % 2 ^ 64) (ip_protocol pkt)
          action)) ∧
      (counted pkt → is_blacklisted st.blacklist_map (ip_saddr pkt) = true →
        st'.ip_tracking_map = st.ip_tracking_map ∧ st'.flow_map = st.flow_map) ∧
      (counted pkt → is_blacklisted st.blacklist_map (ip_saddr pkt) = false →
        st'.ip_tracking_map = update_ip_stats v env.now_ip env.ip_victim st.ip_tracking_map
          (ip_saddr pkt) (pkt.length % 2 ^ 64) (ip_protocol pkt) (recorded_flags pkt) ∧
        st'.flow_map = update_flow_stats v env.now_flow env.flow_victim st.flow_map
          (recorded_key pkt) (pkt.length % 2 ^ 64) (recorded_flags pkt)) := by
  by_cases hc : counted pkt
  · cases hbl : is_blacklisted st.blacklist_map (ip_saddr pkt) with
    | true =>
      refine ⟨_, _, filter_blacklisted v env st pkt hc.1 hc.2 hbl, Or.inl rfl, rfl, rfl,
        fun h => absurd hc h, fun _ => rfl, fun _ _ => ⟨rfl, rfl⟩, fun _ h => ?_⟩
      exact absurd h (by simp)
    | false =>
      have hr := filter_tracked v env st pkt hc hbl
      by_cases hd : recorded_flags pkt &&& 0x02 ≠ 0 ∧
          stored_syn_count st.ip_tracking_map (ip_saddr pkt) > 1000
      · rw [if_pos hd] at hr
        refine ⟨_, _, hr, Or.inl rfl, rfl, rfl, fun h => absurd hc h, fun _ => rfl,
          fun _ h => ?_, fun _ _ => ⟨rfl, rfl⟩⟩
        exact absurd h (by simp)
      · rw [if_neg hd] at hr
        refine ⟨_, _, hr, Or.inr rfl, rfl, rfl, fun h => absurd hc h, fun _ => rfl,
          fun _ h => ?_, fun _ _ => ⟨rfl, rfl⟩⟩
        exact absurd h (by simp)
  · obtain ⟨a, ha, hor⟩ := filter_not_counted v env st pkt hc
    exact ⟨a, st, ha, hor, rfl, rfl, fun _ => rfl, fun h => absurd h hc,
      fun h => absurd h hc, fun h => absurd h hc⟩

/-! ## The sum of the per-CPU packet counters -/

theorem sum_range_update (g : Nat → Nat) (c0 x : Nat) :
    ∀ n, ((List.range n).map (Function.update g c0 x)).sum + (if c0 < n then g c0 else 0) =
      ((List.range n).map g).sum + (if c0 < n then x else 0)
  | 0 => by simp
  | n + 1 => by
    have ih := sum_range_update g c0 x n
    simp only [List.range_succ, List.map_append, List.sum_append, List.map_cons, List.map_nil,
      List.sum_cons, List.sum_nil, Nat.add_zero]
    by_cases h1 : c0 < n
    · have h2 : c0 < n + 1 := by omega
      have h3 : n ≠ c0 := by omega
      rw [if_pos h1] at ih
      rw [if_pos h1] at ih
      rw [if_pos h2, if_pos h2, Function.update_noteq h3]
      omega
    · rw [if_neg h1, if_neg h1] at ih
      by_cases h2 : c0 = n
      · subst h2
        rw [if_pos (Nat.lt_succ_self _), if_pos (Nat.lt_succ_self _), Function.update_same]
        omega
      · have h3 : ¬ c0 < n + 1 := by omega
        have h4 : n ≠ c0 := fun e => h2 e.symm
        rw [if_neg h3, if_neg h3, Function.update_noteq h4]
        omega

/-- One more packet on the record of a CPU below `ncpu` adds one to the aggregate. -/
theorem aggregate_update (ncpu cpu : Nat) (m : Nat → stats) (r : stats) (hcpu : cpu < ncpu)
    (hr : r.total_packets = (m cpu).total_packets + 1) :
    aggregate_total_packets ncpu (Function.update m cpu r) =
      aggregate_total_packets ncpu m + 1 := by
  have hfun : (fun c => (Function.update m cpu r c).total_packets) =
      Function.update (fun c => (m c).total_packets) cpu r.total_packets := by
    funext c
    by_cases hc : c = cpu
    · subst hc; simp
    · simp [Function.update_noteq hc]
  have h := sum_range_update (fun c => (m c).total_packets) cpu r.total_packets ncpu
  simp only [if_pos hcpu] at h
  unfold aggregate_total_packets
  rw [hfun]
  omega

theorem update_stats_total (s : stats) (bytes protocol action : Nat) :
    ∃ r, update_stats (some s) bytes protocol action = some r ∧
      r.total_packets = add64 s.total_packets 1 ∧ r.total_bytes = add64 s.total_bytes bytes := by
  refine ⟨_, rfl, ?_⟩
  split_ifs <;> simp

/-- One run and the packet counters: a packet that is not counted changes nothing, a counted
one adds one to the aggregate, and no record's `total_packets` grows by more than one. -/
theorem filter_total_packets (v : Variant) (env : Env) (st : State) (pkt : List Nat)
    (ncpu n0 : Nat) (hcpu : env.cpu < ncpu)
    (hb : ∀ c, (st.stats_map c).total_packets ≤ n0) (hn : n0 + 1 < 2 ^ 64) :
    ∃ action st', xdp_ddos_filter v env st pkt = some (action, st') ∧
      aggregate_total_packets ncpu st'.stats_map =
        aggregate_total_packets ncpu st.stats_map + (if counted pkt then 1 else 0) ∧
      ∀ c, (st'.stats_map c).total_packets ≤ n0 + 1 := by
  obtain ⟨a, st', h, _, _, _, hnc, hc, _, _⟩ := filter_effect v env st pkt
  refine ⟨a, st', h, ?_⟩
  by_cases hcnt : counted pkt
  · obtain ⟨r, hr, htot, _⟩ := update_stats_total (st.stats_map env.cpu)
      (pkt.length % 2 ^ 64) (ip_protocol pkt) a
    have hst := hc hcnt
    rw [hr] at hst
    simp only [stats_map_store] at hst
    have hlt : (st.stats_map env.cpu).total_packets + 1 < 2 ^ 64 := by
      have := hb env.cpu
      omega
    have htot' : r.total_packets = (st.stats_map env.cpu).total_packets + 1 := by
      rw [htot, add64, Nat.mod_eq_of_lt hlt]
    rw [hst, if_pos hcnt]
    refine ⟨aggregate_update ncpu env.cpu st.stats_map r hcpu htot', fun c => ?_⟩
    by_cases hcc : c = env.cpu
    · subst hcc
      rw [Function.update_same, htot']
      have := hb env.cpu
      omega
    · rw [Function.update_noteq hcc]
      have := hb c
      omega
  · rw [hnc hcnt, if_neg hcnt]
    exact ⟨rfl, fun c => Nat.le_succ_of_le (hb c)⟩

/-- A sequence of runs and the aggregate: it grows by the number of counted packets. -/
theorem run_total_packets (v : Variant) (ncpu : Nat) :
    ∀ (ps : List (Env × List Nat)) (st : State) (n0 : Nat),
      (∀ p ∈ ps, p.1.cpu < ncpu) →
      (∀ c, (st.stats_map c).total_packets ≤ n0) →
      n0 + ps.length < 2 ^ 64 →
      ∃ acts st', run_packets v st ps = some (acts, st') ∧ acts.length = ps.length ∧
        aggregate_total_packets ncpu st'.stats_map =
          aggregate_total_packets ncpu st.stats_map +
            ps.countP (fun p => decide (counted p.2))
  | [], st, _, _, _, _ => ⟨[], st, rfl, rfl, rfl⟩
  | (env, pkt) :: rest, st, n0, hcpu, hb, hn => by
    have hn1 : n0 + 1 < 2 ^ 64 := by
      simp only [List.length_cons] at hn
      omega
    obtain ⟨a, st1, h1, hagg, hb1⟩ := filter_total_packets v env st pkt ncpu n0
      (hcpu (env, pkt) (List.mem_cons_self _ _)) hb hn1
    obtain ⟨acts, st2, h2, hlen, hagg2⟩ := run_total_packets v ncpu rest st1 (n0 + 1)
      (fun p hp => hcpu p (List.mem_cons_of_mem _ hp)) hb1
      (by simp only [List.length_cons] at hn; omega)
    refine ⟨a :: acts, st2, ?_, by simp [hlen], ?_⟩
    · simp only [run_packets, h1, Option.some_bind, h2, Option.map_some']
    · rw [hagg2, hagg, List.countP_cons]
      by_cases hc : counted pkt
      · simp only [hc, if_true, decide_True]
        omega
      · simp only [hc, if_false, decide_False, Bool.false_eq_true]
        omega

theorem aggregate_zero (ncpu : Nat) (m : Nat → stats) (h : ∀ c, m c = stats_zero) :
    aggregate_total_packets ncpu m = 0 := by
  unfold aggregate_total_packets
  apply List.sum_eq_zero
  intro x hx
  simp only [List.mem_map] at hx
  obtain ⟨c, _, rfl⟩ := hx
  rw [h c]
  rfl

/-! ## Aggregation over the contexts -/

/-- C13, refuted as stated: one ARP frame processed on CPU 0 from all-zero statistics is
one packet, and the sum of `total_packets` over the 128 per-CPU records is 0. -/
theorem one_arp_frame_is_not_counted :
    (run_packets Variant.libbpf st_empty [(env_cpu0, frame_arp)]).map Prod.fst =
      some [XDP_PASS] ∧
    (run_packets Variant.libbpf st_empty [(env_cpu0, frame_arp)]).map
      (fun r => aggregate_total_packets MAX_CPUS r.2.stats_map) = some 0 := by
  have h : xdp_ddos_filter Variant.libbpf env_cpu0 st_empty frame_arp =
      some (XDP_PASS, st_empty) := filter_non_ip _ _ _ _ (by decide) (by decide)
  have hr : run_packets Variant.libbpf st_empty [(env_cpu0, frame_arp)] =
      some ([XDP_PASS], st_empty) := by
    simp only [run_packets, h, Option.some_bind, Option.map_some']
  rw [hr]
  exact ⟨rfl, congrArg some (aggregate_zero _ _ (fun _ => rfl))⟩

/-- C13, amended: from all-zero statistics, after a sequence of fewer than 2^64 packets, each
processed on a CPU of its own choice, the sum of `total_packets` over all per-CPU records
is the number of counted packets of the sequence, the IPv4 frames of at least 34 bytes;
shorter buffers and frames of another ethertype are not counted.  It is the length of the
sequence when every packet is such an IPv4 frame. -/
theorem aggregate_total_packets_counts (v : Variant) (ncpu : Nat) (st : State)
    (ps : List (Env × List Nat)) (hzero : ∀ c, st.stats_map c = stats_zero)
    (hcpu : ∀ p ∈ ps, p.1.cpu < ncpu) (hlen : ps.length < 2 ^ 64) :
    ∃ acts st', run_packets v st ps = some (acts, st') ∧ acts.length = ps.length ∧
      aggregate_total_packets ncpu st'.stats_map =
        ps.countP (fun p => decide (counted p.2)) ∧
      ((∀ p ∈ ps, counted p.2) → aggregate_total_packets ncpu st'.stats_map = ps.length) := by
  obtain ⟨acts, st', h, hl, hagg⟩ := run_total_packets v ncpu ps st 0 hcpu
    (fun c => by rw [hzero c]; exact Nat.le_refl 0) (by omega)
  rw [aggregate_zero ncpu st.stats_map hzero, Nat.zero_add] at hagg
  refine ⟨acts, st', h, hl, hagg, fun hall => ?_⟩
  rw [hagg, List.countP_eq_length]
  intro p hp
  exact decide_eq_true (hall p hp)

/-- C13 amended, at an ARP frame on CPU 0, a TCP SYN on CPU 1 and a UDP datagram on CPU 2:
three packets, two of them counted. -/
theorem aggregate_total_packets_counts_witness :
    ∃ acts st', run_packets Variant.libbpf st_empty
        [(env_cpu0, frame_arp), (⟨1, 200, 201, 0, 0⟩, frame_syn),
          (⟨2, 300, 301, 0, 0⟩, frame_udp)] = some (acts, st') ∧
      acts.length = 3 ∧ aggregate_total_packets MAX_CPUS st'.stats_map = 2 := by
  obtain ⟨acts, st', h, hl, hagg, _⟩ := aggregate_total_packets_counts Variant.libbpf MAX_CPUS
    st_empty [(env_cpu0, frame_arp), (⟨1, 200, 201, 0, 0⟩, frame_syn),
      (⟨2, 300, 301, 0, 0⟩, frame_udp)] (fun _ => rfl) (by decide) (by decide)
  exact ⟨acts, st', h, hl, hagg.trans (by decide)⟩

/-! ## Capacity -/

/-- Tables within their capacity stay within their capacity, in both variants and whatever
entry the kernel reclaims. -/
theorem xdp_ddos_filter_tables_bounded (v : Variant) (env : Env) (st : State)
    (pkt : List Nat) (hf : st.flow_map.length ≤ MAX_FLOWS)
    (hi : st.ip_tracking_map.length ≤ MAX_IPS) :
    ∃ action st', xdp_ddos_filter v env st pkt = some (action, st') ∧
      st'.flow_map.length ≤ MAX_FLOWS ∧ st'.ip_tracking_map.length ≤ MAX_IPS := by
  obtain ⟨a, st', h, _, _, _, hnc, _, hbl, htr⟩ := filter_effect v env st pkt
  refine ⟨a, st', h, ?_⟩
  by_cases hc : counted pkt
  · cases hb : is_blacklisted st.blacklist_map (ip_saddr pkt) with
    | true =>
      obtain ⟨h1, h2⟩ := hbl hc hb
      rw [h1, h2]; exact ⟨hf, hi⟩
    | false =>
      obtain ⟨h1, h2⟩ := htr hc hb
      rw [h1, h2]
      exact ⟨update_flow_stats_length _ _ _ _ _ _ _ hf, update_ip_stats_length _ _ _ _ _ _ _ _ hi⟩
  · rw [hnc hc]; exact ⟨hf, hi⟩

theorem st_full_flow_map : st_full.flow_map = flow_table_full := by
  simp only [st_full]

theorem st_full_ip_tracking_map : st_full.ip_tracking_map = ip_table_full := by
  simp only [st_full]

/-- C14, at full tables of `xdp_filter.c` (plain `BPF_HASH`): a well-formed UDP datagram of
a new flow from a new source is passed, and both insertions fail: the flow table and the IP
table are exactly as before, without an entry for the flow or the source, and nothing is
removed.  On the same tables the LRU maps of `xdp_maps.h` take the new entries and stay at
their capacity. -/
theorem full_hash_tables_reject_new_keys :
    st_full.flow_map.length = MAX_FLOWS ∧ st_full.ip_tracking_map.length = MAX_IPS ∧
    bpf_map_lookup_elem st_full.flow_map (port_key frame_udp) = none ∧
    bpf_map_lookup_elem st_full.ip_tracking_map (ip_saddr frame_udp) = none ∧
    (xdp_ddos_filter Variant.bcc env_cpu0 st_full frame_udp).map
      (fun r => (r.1, r.2.flow_map, r.2.ip_tracking_map)) =
      some (XDP_PASS, st_full.flow_map, st_full.ip_tracking_map) ∧
    (∃ st', xdp_ddos_filter Variant.libbpf env_cpu0 st_full frame_udp = some (XDP_PASS, st') ∧
      bpf_map_lookup_elem st'.flow_map (port_key frame_udp) = some ⟨1, 42, 101, 0⟩ ∧
      bpf_map_lookup_elem st'.ip_tracking_map (ip_saddr frame_udp) =
        some ⟨1, 42, 100, 1, 0, 1⟩ ∧
      st'.flow_map.length ≤ MAX_FLOWS ∧ st'.ip_tracking_map.length ≤ MAX_IPS) := by
  have hfl : bpf_map_lookup_elem flow_table_full (port_key frame_udp) = none :=
    flow_table_full_lookup _ (by decide)
  have hil : bpf_map_lookup_elem ip_table_full (ip_saddr frame_udp) = none :=
    ip_table_full_lookup _ (by decide)
  have hflen := flow_table_full_length
  have hilen := ip_table_full_length
  have hb := filter_udp Variant.bcc env_cpu0 st_full frame_udp (by decide) (by decide)
    (by decide) (by decide) (by decide)
  have hl := filter_udp Variant.libbpf env_cpu0 st_full frame_udp (by decide) (by decide)
    (by decide) (by decide) (by decide)
  have hflow : update_flow_stats Variant.bcc env_cpu0.now_flow env_cpu0.flow_victim
      flow_table_full (port_key frame_udp) (frame_udp.length % 2 ^ 64) 0 = flow_table_full :=
    update_flow_stats_full_hash _ _ _ _ _ _ hfl (Nat.le_of_eq hflen.symm)
  have hip : update_ip_stats Variant.bcc env_cpu0.now_ip env_cpu0.ip_victim
      ip_table_full (ip_saddr frame_udp) (frame_udp.length % 2 ^ 64)
      (ip_protocol frame_udp) 0 = ip_table_full :=
    update_ip_stats_full_hash _ _ _ _ _ _ _ hil (Nat.le_of_eq hilen.symm)
  simp only [st_full_flow_map, st_full_ip_tracking_map]
  refine ⟨hflen, hilen, hfl, hil, ?_, _, hl, ?_, ?_, ?_, ?_⟩
  · rw [hb]
    simp only [Option.map_some', update_tracking, st_full_flow_map, st_full_ip_tracking_map,
      hflow, hip]
  · simp only [update_tracking, st_full_flow_map]
    exact (update_flow_stats_upsert Variant.libbpf env_cpu0.now_flow env_cpu0.flow_victim
      flow_table_full (port_key frame_udp) (frame_udp.length % 2 ^ 64) 0 (by decide)
      (by decide) (Or.inl rfl)).1 hfl
  · simp only [update_tracking, st_full_ip_tracking_map]
    exact update_ip_stats_absent Variant.libbpf env_cpu0.now_ip env_cpu0.ip_victim
      ip_table_full (ip_saddr frame_udp) (frame_udp.length % 2 ^ 64)
      (ip_protocol frame_udp) 0 hil (Or.inl rfl)
  · simp only [update_tracking, st_full_flow_map]
    exact update_flow_stats_length _ _ _ _ _ _ _ (Nat.le_of_eq hflen)
  · simp only [update_tracking, st_full_ip_tracking_map]
    exact update_ip_stats_length _ _ _ _ _ _ _ _ (Nat.le_of_eq hilen)

/-! ## What one run leaves alone -/

theorem ip_table_full_head :
    ∃ tail, ip_table_full = (0, ⟨1, 60, 50, 1, 0, 0⟩) :: tail ∧ ∀ p ∈ tail, p.1 ≠ 0 := by
  have h : MAX_IPS = 131071 + 1 := rfl
  refine ⟨List.map ((fun i => (i, (⟨1, 60, 50, 1, 0, 0⟩ : ip_stats))) ∘ Nat.succ)
    (List.range 131071), ?_, ?_⟩
  · unfold ip_table_full
    rw [h, List.range_succ_eq_map, List.map_cons, List.map_map]
  · intro p hp
    simp only [List.mem_map, Function.comp] at hp
    obtain ⟨i, _, rfl⟩ := hp
    exact Nat.succ_ne_zero i

/-- A new source offered to a full LRU table for which the kernel names no victim: the
first entry is reclaimed and is gone afterwards. -/
theorem update_ip_stats_evicts_head (now : Nat) (m tail : List (Nat × ip_stats))
    (k0 : Nat) (e0 : ip_stats) (src_ip bytes protocol tcp_flags : Nat)
    (hm : m = (k0, e0) :: tail) (habs : bpf_map_lookup_elem m src_ip = none)
    (hfull : MAX_IPS ≤ m.length) (hsrc : src_ip ≠ k0) :
    bpf_map_lookup_elem
      (update_ip_stats Variant.libbpf now 0 m src_ip bytes protocol tcp_flags) k0 = none := by
  unfold update_ip_stats
  simp only [habs]
  rw [show Variant.libbpf.lru = true from rfl,
    bpf_map_update_elem_full_lru _ m tail k0 e0 _ _ hm habs hfull,
    lookup_append_other _ _ _ _ (Ne.symm hsrc), lookup_lru_evict]
  simp

/-- C17, refuted as stated: with the LRU maps of `xdp_maps.h` and a full IP table, a UDP
datagram from the new source 10.0.0.1 makes the kernel reclaim an entry, here the one of
source address 0: that entry of another source is in the table before the call and is gone
after it. -/
theorem ip_entry_of_other_source_evicted :
    (0 : Nat) ≠ ip_saddr frame_udp ∧
    bpf_map_lookup_elem st_full.ip_tracking_map 0 = some ⟨1, 60, 50, 1, 0, 0⟩ ∧
    (xdp_ddos_filter Variant.libbpf env_cpu0 st_full frame_udp).map
      (fun r => (r.1, bpf_map_lookup_elem r.2.ip_tracking_map 0)) = some (XDP_PASS, none) := by
  obtain ⟨tail, htab, _⟩ := ip_table_full_head
  have hil : bpf_map_lookup_elem ip_table_full (ip_saddr frame_udp) = none :=
    ip_table_full_lookup _ (by decide)
  have hl := filter_udp Variant.libbpf env_cpu0 st_full frame_udp (by decide) (by decide)
    (by decide) (by decide) (by decide)
  have hgone : bpf_map_lookup_elem (update_ip_stats Variant.libbpf env_cpu0.now_ip
      env_cpu0.ip_victim ip_table_full (ip_saddr frame_udp) (frame_udp.length % 2 ^ 64)
      (ip_protocol frame_udp) 0) 0 = none :=
    update_ip_stats_evicts_head _ ip_table_full tail 0 _ _ _ _ _ htab hil
      (Nat.le_of_eq ip_table_full_length.symm) (by decide)
  have hhead : bpf_map_lookup_elem ip_table_full 0 = some ⟨1, 60, 50, 1, 0, 0⟩ := by
    rw [htab]
    simp only [bpf_map_lookup_elem, if_true]
  refine ⟨by decide, ?_, ?_⟩
  · rw [st_full_ip_tracking_map]
    exact hhead
  · rw [hl]
    simp only [Option.map_some', update_tracking, st_full_ip_tracking_map, hgone]

/-- C17, amended: for every packet and every state the program never writes the blacklist
or the configuration, and the statistics record of every CPU other than the calling one is
the same before and after the call.  When no eviction takes place in the IP table (every
source that has an entry before the call still has one after it), the entry of every source
other than the packet's source is the same before and after; when no eviction takes place
in the flow table, so is the entry of every flow key other than the packet's own.  No
eviction takes place in a table when recording the packet reclaims nothing: the table is a
plain hash map, or the packet's key already has an entry, or the LRU map reclaims no entry
on the insertion.  An eviction removes entries of other keys and alters none: the entry of
every other source, and of every other flow key, is after the call as it was before, or it
is gone. -/
theorem xdp_ddos_filter_frame (v : Variant) (env : Env) (st : State) (pkt : List Nat) :
    ∃ action st', xdp_ddos_filter v env st pkt = some (action, st') ∧
      st'.blacklist_map = st.blacklist_map ∧ st'.config_map = st.config_map ∧
      (∀ cpu, cpu ≠ env.cpu → st'.stats_map cpu = st.stats_map cpu) ∧
      (no_eviction st.ip_tracking_map st'.ip_tracking_map →
        ∀ ip, ip ≠ ip_saddr pkt →
          bpf_map_lookup_elem st'.ip_tracking_map ip =
            bpf_map_lookup_elem st.ip_tracking_map ip) ∧
      (no_eviction st.flow_map st'.flow_map →
        ∀ key, key ≠ recorded_key pkt →
          bpf_map_lookup_elem st'.flow_map key = bpf_map_lookup_elem st.flow_map key) ∧
      (reclaims_nothing v.lru MAX_IPS env.ip_victim st.ip_tracking_map (ip_saddr pkt) →
        no_eviction st.ip_tracking_map st'.ip_tracking_map) ∧
      (reclaims_nothing v.lru MAX_FLOWS env.flow_victim st.flow_map (recorded_key pkt) →
        no_eviction st.flow_map st'.flow_map) ∧
      (∀ ip, ip ≠ ip_saddr pkt →
        bpf_map_lookup_elem st'.ip_tracking_map ip =
          bpf_map_lookup_elem st.ip_tracking_map ip ∨
        bpf_map_lookup_elem st'.ip_tracking_map ip = none) ∧
      (∀ key, key ≠ recorded_key pkt →
        bpf_map_lookup_elem st'.flow_map key = bpf_map_lookup_elem st.flow_map key ∨
        bpf_map_lookup_elem st'.flow_map key = none) := by
  obtain ⟨a, st', h, _, hbl, hcfg, hnc, hst, hban, htr⟩ := filter_effect v env st pkt
  refine ⟨a, st', h, hbl, hcfg, ?_⟩
  have hstats : ∀ cpu, cpu ≠ env.cpu → st'.stats_map cpu = st.stats_map cpu := by
    intro cpu hcpu
    by_cases hc : counted pkt
    · obtain ⟨r, hr, _⟩ := update_stats_total (st.stats_map env.cpu) (pkt.length % 2 ^ 64)
        (ip_protocol pkt) a
      rw [hst hc, hr]
      simp only [stats_map_store, Function.update_noteq hcpu]
    · rw [hnc hc]
  have hip : (reclaims_nothing v.lru MAX_IPS env.ip_victim st.ip_tracking_map
        (ip_saddr pkt) → no_eviction st.ip_tracking_map st'.ip_tracking_map) ∧
      (∀ ip, ip ≠ ip_saddr pkt →
        bpf_map_lookup_elem st'.ip_tracking_map ip =
          bpf_map_lookup_elem st.ip_tracking_map ip ∨
        bpf_map_lookup_elem st'.ip_tracking_map ip = none) := by
    by_cases hc : counted pkt
    · cases hb : is_blacklisted st.blacklist_map (ip_saddr pkt) with
      | true =>
        rw [(hban hc hb).1]
        exact ⟨fun _ _ hk => hk, fun _ _ => Or.inl rfl⟩
      | false =>
        rw [(htr hc hb).1]
        exact ⟨fun hne => update_ip_stats_no_eviction v _ _ _ _ _ _ _ hne,
          fun ip hne => update_ip_stats_other_or_gone v _ _ _ _ _ _ _ ip hne⟩
    · rw [hnc hc]
      exact ⟨fun _ _ hk => hk, fun _ _ => Or.inl rfl⟩
  have hflow : (reclaims_nothing v.lru MAX_FLOWS env.flow_victim st.flow_map
        (recorded_key pkt) → no_eviction st.flow_map st'.flow_map) ∧
      (∀ key, key ≠ recorded_key pkt →
        bpf_map_lookup_elem st'.flow_map key = bpf_map_lookup_elem st.flow_map key ∨
        bpf_map_lookup_elem st'.flow_map key = none) := by
    by_cases hc : counted pkt
    · cases hb : is_blacklisted st.blacklist_map (ip_saddr pkt) with
      | true =>
        rw [(hban hc hb).2]
        exact ⟨fun _ _ hk => hk, fun _ _ => Or.inl rfl⟩
      | false =>
        rw [(htr hc hb).2]
        exact ⟨fun hne => update_flow_stats_no_eviction v _ _ _ _ _ _ hne,
          fun key hne => update_flow_stats_other_or_gone v _ _ _ _ _ _ key hne⟩
    · rw [hnc hc]
      exact ⟨fun _ _ hk => hk, fun _ _ => Or.inl rfl⟩
  exact ⟨hstats,
    fun hne ip hip' => same_of_no_eviction _ _ ip hne (hip.2 ip hip'),
    fun hne key hk => same_of_no_eviction _ _ key hne (hflow.2 key hk),
    hip.1, hflow.1, hip.2, hflow.2⟩

/-- C17 amended, at a TCP SYN of 10.0.0.1 offered to the LRU maps when 10.0.0.1 and
10.0.0.2 are tracked: 10.0.0.1 has an IP entry, so nothing is inserted into the IP table,
and the kernel reclaims nothing for the new flow.  No eviction takes place, and the
blacklist entry, the record of CPU 1, the IP entry of 10.0.0.2 and the flow entry of
10.0.0.2 are after the call what they were before it. -/
theorem xdp_ddos_filter_frame_witness :
    ∃ action st', xdp_ddos_filter Variant.libbpf env_cpu0 st_two_sources frame_syn =
        some (action, st') ∧
      st'.blacklist_map = [(150994954, 7)] ∧ st'.stats_map 1 = stats_zero ∧
      no_eviction st_two_sources.ip_tracking_map st'.ip_tracking_map ∧
      no_eviction st_two_sources.flow_map st'.flow_map ∧
      bpf_map_lookup_elem st'.ip_tracking_map ip_10_0_0_2 = some ⟨7, 378, 90, 1, 7, 0⟩ ∧
      bpf_map_lookup_elem st'.flow_map (port_key frame_syn_ack) = some ⟨7, 378, 90, 18⟩ := by
  obtain ⟨a, st', h, hb, _, hs, hi, hf, hni, hnf, _, _⟩ :=
    xdp_ddos_filter_frame Variant.libbpf env_cpu0 st_two_sources frame_syn
  have h1 := hni (Or.inr (Or.inl (by decide)))
  have h2 := hnf (Or.inr (Or.inr (by decide)))
  exact ⟨a, st', h, hb, hs 1 (by decide), h1, h2,
    (hi h1 ip_10_0_0_2 (by decide)).trans (by decide),
    (hf h2 (port_key frame_syn_ack) (by decide)).trans (by decide)⟩

/-! ## The statistics record over a run -/

/-- One `update_stats` on a consistent record whose counters do not overflow. -/
theorem update_stats_step (s : stats) (len protocol action : Nat)
    (ha : action = XDP_DROP ∨ action = XDP_PASS) (hc : stats_consistent s)
    (hp : s.total_packets + 1 < 2 ^ 64) (hb : s.total_bytes + len < 2 ^ 64) :
    ∃ r, update_stats (some s) (len % 2 ^ 64) protocol action = some r ∧
      stats_consistent r ∧ r.total_packets = s.total_packets + 1 ∧
      r.total_bytes = s.total_bytes + len ∧ stats_le s r ∧
      one_action_counted s r ∧ one_protocol_counted s r := by
  obtain ⟨h1, h2, h3⟩ := hc
  refine ⟨_, rfl, ?_⟩
  simp only [Nat.reducePow] at hp hb
  have hpd : ¬ (XDP_PASS = XDP_DROP) := by decide
  rcases ha with ha | ha <;> subst ha <;>
    simp only [stats_consistent, stats_le, one_action_counted, one_protocol_counted, add64,
      Nat.reducePow, if_true, if_neg hpd, eq_self_iff_true] <;>
    split_ifs <;> simp only [and_true, true_and] <;> clear hpd <;> omega

theorem stats_le_refl (s : stats) : stats_le s s :=
  ⟨Nat.le_refl _, Nat.le_refl _, Nat.le_refl _, Nat.le_refl _, Nat.le_refl _, Nat.le_refl _,
    Nat.le_refl _, Nat.le_refl _, Nat.le_refl _, Nat.le_refl _⟩

/-- One run and the record of CPU `c`, consistent and short of overflow before the run. -/
theorem filter_stats_step (v : Variant) (env : Env) (st : State) (pkt : List Nat)
    (c n b : Nat) (hcons : stats_consistent (st.stats_map c))
    (hn : (st.stats_map c).total_packets ≤ n) (hb : (st.stats_map c).total_bytes ≤ b)
    (hno : n + 1 < 2 ^ 64) (hbo : b + pkt.length < 2 ^ 64) :
    ∃ action st', xdp_ddos_filter v env st pkt = some (action, st') ∧
      stats_consistent (st'.stats_map c) ∧
      (st'.stats_map c).total_packets ≤ n + 1 ∧
      (st'.stats_map c).total_bytes ≤ b + pkt.length ∧
      stats_le (st.stats_map c) (st'.stats_map c) ∧
      (env.cpu = c ∧ counted pkt →
        one_action_counted (st.stats_map c) (st'.stats_map c) ∧
        one_protocol_counted (st.stats_map c) (st'.stats_map c)) ∧
      (¬ (env.cpu = c ∧ counted pkt) → st'.stats_map c = st.stats_map c) := by
  obtain ⟨a, st', h, hor, _, _, hnc, hst, _, _⟩ := filter_effect v env st pkt
  refine ⟨a, st', h, ?_⟩
  have hsame : st'.stats_map c = st.stats_map c →
      stats_consistent (st'.stats_map c) ∧
      (st'.stats_map c).total_packets ≤ n + 1 ∧
      (st'.stats_map c).total_bytes ≤ b + pkt.length ∧
      stats_le (st.stats_map c) (st'.stats_map c) := by
    intro he
    rw [he]
    exact ⟨hcons, Nat.le_succ_of_le hn, Nat.le_trans hb (Nat.le_add_right _ _),
      stats_le_refl _⟩
  by_cases hc : counted pkt
  · by_cases hcpu : env.cpu = c
    · subst hcpu
      obtain ⟨r, hr, hrc, hrp, hrb, hle, hact, hproto⟩ :=
        update_stats_step (st.stats_map env.cpu) pkt.length (ip_protocol pkt) a hor hcons
          (by omega) (by omega)
      have he : st'.stats_map env.cpu = r := by
        rw [hst hc, hr]
        simp only [stats_map_store, Function.update_same]
      rw [he]
      exact ⟨hrc, by omega, by omega, hle, fun _ => ⟨hact, hproto⟩,
        fun hno' => absurd ⟨rfl, hc⟩ hno'⟩
    · have he : st'.stats_map c = st.stats_map c := by
        obtain ⟨r, hr, _⟩ := update_stats_total (st.stats_map env.cpu) (pkt.length % 2 ^ 64)
          (ip_protocol pkt) a
        rw [hst hc, hr]
        simp only [stats_map_store, Function.update_noteq (Ne.symm hcpu)]
      obtain ⟨h1, h2, h3, h4⟩ := hsame he
      exact ⟨h1, h2, h3, h4, fun hyes => absurd hyes.1 hcpu, fun _ => he⟩
  · have he : st'.stats_map c = st.stats_map c := by rw [hnc hc]
    obtain ⟨h1, h2, h3, h4⟩ := hsame he
    exact ⟨h1, h2, h3, h4, fun hyes => absurd hyes.2 hc, fun _ => he⟩

/-- A sequence of runs keeps the record of CPU `c` consistent, as long as the packet and
byte counts stay below 2^64. -/
theorem run_stats_invariant (v : Variant) (c : Nat) :
    ∀ (ps : List (Env × List Nat)) (st : State) (n b : Nat),
      stats_consistent (st.stats_map c) →
      (st.stats_map c).total_packets ≤ n → (st.stats_map c).total_bytes ≤ b →
      n + ps.length < 2 ^ 64 → b + (ps.map fun p => p.2.length).sum < 2 ^ 64 →
      ∃ acts st', run_packets v st ps = some (acts, st') ∧
        stats_consistent (st'.stats_map c) ∧
        (st'.stats_map c).total_packets ≤ n + ps.length ∧
        (st'.stats_map c).total_bytes ≤ b + (ps.map fun p => p.2.length).sum
  | [], st, _, _, hcons, hn, hb, _, _ => ⟨[], st, rfl, hcons, hn, hb⟩
  | (env, pkt) :: rest, st, n, b, hcons, hn, hb, hno, hbo => by
    simp only [List.length_cons, List.map_cons, List.sum_cons] at hno hbo
    obtain ⟨a, st1, h1, hc1, hn1, hb1, _⟩ :=
      filter_stats_step v env st pkt c n b hcons hn hb (by omega) (by omega)
    obtain ⟨acts, st2, h2, hc2, hn2, hb2⟩ :=
      run_stats_invariant v c rest st1 (n + 1) (b + pkt.length) hc1 hn1 hb1 (by omega)
        (by omega)
    refine ⟨a :: acts, st2, ?_, hc2, ?_, ?_⟩
    · simp only [run_packets, h1, Option.some_bind, h2, Option.map_some']
    · simp only [List.length_cons]; omega
    · simp only [List.map_cons, List.sum_cons]; omega

/-! ## The statistics-record invariant -/

/-- C18: from an all-zero record of CPU `c`, after any sequence of runs (on any CPUs) that
keeps the 64-bit counters from overflowing, the record satisfies
`total_packets = dropped_packets + passed_packets`,
`total_bytes = dropped_bytes + passed_bytes` and
`total_packets = tcp_packets + udp_packets + icmp_packets + other_packets`, and so it does
after one more run.  That run lowers no counter; if it runs on CPU `c` with a counted
packet it raises exactly one of `dropped_packets`, `passed_packets` and exactly one of the
four protocol counters, each by one, and otherwise it leaves the record as it is. -/
theorem stats_record_invariant (v : Variant) (c : Nat) (st : State)
    (ps : List (Env × List Nat)) (env : Env) (pkt : List Nat)
    (hzero : st.stats_map c = stats_zero) (hlen : ps.length + 1 < 2 ^ 64)
    (hbytes : (ps.map fun p => p.2.length).sum + pkt.length < 2 ^ 64) :
    ∃ acts st1 action st2, run_packets v st ps = some (acts, st1) ∧
      xdp_ddos_filter v env st1 pkt = some (action, st2) ∧
      stats_consistent (st1.stats_map c) ∧ stats_consistent (st2.stats_map c) ∧
      stats_le (st1.stats_map c) (st2.stats_map c) ∧
      (env.cpu = c ∧ counted pkt →
        one_action_counted (st1.stats_map c) (st2.stats_map c) ∧
        one_protocol_counted (st1.stats_map c) (st2.stats_map c)) ∧
      (¬ (env.cpu = c ∧ counted pkt) → st2.stats_map c = st1.stats_map c) := by
  have hz : stats_consistent (st.stats_map c) := by
    rw [hzero]; exact ⟨rfl, rfl, rfl⟩
  have hz0 : (st.stats_map c).total_packets ≤ 0 := by rw [hzero]; exact Nat.le_refl 0
  have hzb : (st.stats_map c).total_bytes ≤ 0 := by rw [hzero]; exact Nat.le_refl 0
  obtain ⟨acts, st1, h1, hc1, hn1, hb1⟩ :=
    run_stats_invariant v c ps st 0 0 hz hz0 hzb (by omega) (by omega)
  obtain ⟨a, st2, h2, hc2, _, _, hle, hyes, hno⟩ :=
    filter_stats_step v env st1 pkt c (0 + ps.length) (0 + (ps.map fun p => p.2.length).sum)
      hc1 hn1 hb1 (by omega) (by omega)
  exact ⟨acts, st1, a, st2, h1, h2, hc1, hc2, hle, hyes, hno⟩

/-- C18, at an ARP frame, a TCP SYN and a UDP datagram on CPU 0, followed by a TCP ACK on
CPU 0: the record of CPU 0 is consistent before and after the ACK, which raises one action
counter and one protocol counter. -/
theorem stats_record_invariant_witness :
    ∃ acts st1 action st2,
      run_packets Variant.libbpf st_empty
        [(env_cpu0, frame_arp), (env_cpu0, frame_syn), (env_cpu0, frame_udp)] =
        some (acts, st1) ∧
      xdp_ddos_filter Variant.libbpf env_cpu0 st1 frame_ack = some (action, st2) ∧
      stats_consistent (st1.stats_map 0) ∧ stats_consistent (st2.stats_map 0) ∧
      one_action_counted (st1.stats_map 0) (st2.stats_map 0) ∧
      one_protocol_counted (st1.stats_map 0) (st2.stats_map 0) := by
  obtain ⟨acts, st1, a, st2, h1, h2, hc1, hc2, _, hyes, _⟩ :=
    stats_record_invariant Variant.libbpf 0 st_empty
      [(env_cpu0, frame_arp), (env_cpu0, frame_syn), (env_cpu0, frame_udp)] env_cpu0 frame_ack
      rfl (by decide) (by decide)
  obtain ⟨ha, hp⟩ := hyes ⟨rfl, by decide⟩
  exact ⟨acts, st1, a, st2, h1, h2, hc1, hc2, ha, hp⟩

/-! ## The one-packet lag -/

theorem syn_actions_no_wrap (w n : Nat) (hw : 65536 ≤ 2 ^ w) (hn : n ≤ 65536) :
    (List.range n).map (fun i => if (0 + i) % 2 ^ w > 1000 then XDP_DROP else XDP_PASS) =
      (List.range n).map (fun k => if k < 1001 then XDP_PASS else XDP_DROP) := by
  apply List.map_congr_left
  intro i hi
  have hi' : i < n := List.mem_range.mp hi
  have hmod : (0 + i) % 2 ^ w = i := by
    rw [Nat.zero_add]; exact Nat.mod_eq_of_lt (by omega)
  rw [hmod]
  by_cases h : i < 1001
  · rw [if_neg (by omega), if_pos h]
  · rw [if_pos (by omega), if_neg h]

/-- C15, refuted as stated: with the threshold 1000 of the program, 1001 consecutive
well-formed TCP SYN packets from a fresh source that is not blacklisted are all passed: the
packet number 1001, the (N+1)-th for N = 1000, is not dropped. -/
theorem syn_number_1001_is_passed :
    tcp_syn_from ip_10_0_0_1 frame_syn ∧
    bpf_map_lookup_elem st_empty.blacklist_map ip_10_0_0_1 = none ∧
    bpf_map_lookup_elem st_empty.ip_tracking_map ip_10_0_0_1 = none ∧
    (run_packets Variant.libbpf st_empty (List.replicate 1001 (env_cpu0, frame_syn))).map
      Prod.fst = some (List.replicate 1001 XDP_PASS) := by
  refine ⟨by decide, by decide, by decide, ?_⟩
  obtain ⟨st', h⟩ := run_syn Variant.libbpf ip_10_0_0_1
    (List.replicate 1001 (env_cpu0, frame_syn)) st_empty 0
    (fun p hp => by rw [(List.mem_replicate.mp hp).2]; decide)
    (by decide) (by decide) (Or.inr ⟨by decide, rfl, Or.inl rfl⟩)
  rw [syn_actions_eq _ _ (two_pow_counter_bits Variant.libbpf)
    (by rw [List.length_replicate]; decide), List.length_replicate, Nat.min_self,
    Nat.sub_self, List.replicate_zero, List.append_nil] at h
  rw [h]
  rfl

/-- C15, amended: the threshold is the constant 1000 and the lag is of two packets.  From an
IP table with no entry for a source that is not blacklisted, in a sequence of at most 65536
consecutive well-formed TCP SYN packets from that source (LRU maps, or room in the IP
table) the packets 1 to 1001 are passed and every later one is dropped: the packet number
1002, the (N+2)-th for N = 1000, is the first for which the program returns XDP_DROP. -/
theorem syn_flood_lag (v : Variant) (st : State) (ps : List (Env × List Nat)) (ip : Nat)
    (hsyn : ∀ p ∈ ps, tcp_syn_from ip p.2)
    (hbl : bpf_map_lookup_elem st.blacklist_map ip = none)
    (habs : bpf_map_lookup_elem st.ip_tracking_map ip = none)
    (hroom : v = Variant.libbpf ∨ st.ip_tracking_map.length < MAX_IPS)
    (hlen : ps.length ≤ 65536) :
    ∃ st', run_packets v st ps =
      some ((List.range ps.length).map (fun k => if k < 1001 then XDP_PASS else XDP_DROP),
        st') := by
  have hroom' : v.lru = true ∨ st.ip_tracking_map.length < MAX_IPS := by
    rcases hroom with h | h
    · exact Or.inl (by rw [h]; rfl)
    · exact Or.inr h
  have hpow := two_pow_counter_bits v
  obtain ⟨st', h⟩ := run_syn v ip ps st 0 hsyn hbl (by omega) (Or.inr ⟨habs, rfl, hroom'⟩)
  rw [syn_actions_no_wrap v.counter_bits ps.length hpow hlen] at h
  exact ⟨st', h⟩

/-- C15 amended, at 1003 copies of one SYN frame. -/
theorem syn_flood_lag_witness :
    tcp_syn_from ip_10_0_0_1 frame_syn ∧
    bpf_map_lookup_elem st_empty.blacklist_map ip_10_0_0_1 = none ∧
    bpf_map_lookup_elem st_empty.ip_tracking_map ip_10_0_0_1 = none ∧
    ∃ st', run_packets Variant.bcc st_empty (List.replicate 1003 (env_cpu0, frame_syn)) =
      some ((List.range 1003).map (fun k => if k < 1001 then XDP_PASS else XDP_DROP), st') := by
  refine ⟨by decide, by decide, by decide, ?_⟩
  have h := syn_flood_lag Variant.bcc st_empty (List.replicate 1003 (env_cpu0, frame_syn))
    ip_10_0_0_1 (fun p hp => by rw [(List.mem_replicate.mp hp).2]; decide)
    (by decide) (by decide) (Or.inr (by decide)) (by rw [List.length_replicate]; decide)
  rw [List.length_replicate] at h
  exact h

/-! ## The stored SYN count wraps -/

theorem getElem?_range_map (f : Nat → Nat) (n j : Nat) (hj : j < n) :
    ((List.range n).map f)[j]? = some (f j) := by
  rw [List.getElem?_map, List.getElem?_range hj]
  rfl

/-- C19, refuted as stated: with the 16-bit `syn_count` of `xdp_maps.h`, a source whose
stored count is 1001 has its next SYN dropped, and the next 64534 as well, but the SYN
after those finds the count wrapped to 0 and is passed. -/
theorem blocking_ends_when_syn_count_wraps :
    tcp_syn_from ip_10_0_0_1 frame_syn ∧
    bpf_map_lookup_elem st_flooded.blacklist_map ip_10_0_0_1 = none ∧
    stored_syn_count st_flooded.ip_tracking_map ip_10_0_0_1 = 1001 ∧
    (run_packets Variant.libbpf st_flooded (List.replicate 64536 (env_cpu0, frame_syn))).map
      (fun r => (r.1[0]?, r.1[64534]?, r.1[64535]?)) =
      some (some XDP_DROP, some XDP_DROP, some XDP_PASS) := by
  refine ⟨by decide, by decide, by decide, ?_⟩
  obtain ⟨st', h⟩ := run_syn Variant.libbpf ip_10_0_0_1
    (List.replicate 64536 (env_cpu0, frame_syn)) st_flooded 1001
    (fun p hp => by rw [(List.mem_replicate.mp hp).2]; decide)
    (by decide) (by decide) (Or.inl ⟨⟨1001, 54054, 99, 1, 1001, 0⟩, by decide, rfl⟩)
  rw [List.length_replicate] at h
  rw [h]
  simp only [Option.map_some', getElem?_range_map _ 64536 0 (by decide),
    getElem?_range_map _ 64536 64534 (by decide),
    getElem?_range_map _ 64536 64535 (by decide)]
  decide

/-- A counted packet from `ip` raises the stored `syn_count` exactly when it is a
well-formed TCP SYN. -/
theorem syn_recorded_iff (pkt : List Nat) (ip : Nat) (hc : counted pkt)
    (hsrc : ip_saddr pkt = ip) :
    (ip_protocol pkt = IPPROTO_TCP ∧ recorded_flags pkt &&& 0x02 ≠ 0) ↔ tcp_syn_from ip pkt := by
  unfold recorded_flags tcp_syn_from
  constructor
  · rintro ⟨htcp, hf⟩
    by_cases hfit : ip_protocol pkt = IPPROTO_TCP ∧ l4_offset pkt + 20 ≤ pkt.length
    · rw [if_pos hfit] at hf
      exact ⟨hc.1, hc.2, hsrc, htcp, hfit.2, hf⟩
    · rw [if_neg hfit] at hf
      exact absurd rfl hf
  · rintro ⟨_, _, _, htcp, hfit, hf⟩
    have hfit' : ip_protocol pkt = IPPROTO_TCP ∧ l4_offset pkt + 20 ≤ pkt.length :=
      ⟨htcp, hfit⟩
    rw [if_pos hfit']
    exact ⟨htcp, hf⟩

/-- One run and the stored `syn_count` of a source that is not blacklisted and has an
entry: whatever the packet, the entry is gone afterwards (evicted), or its `syn_count` is
one more (modulo the width of the field) for a well-formed TCP SYN from that source and as
before for any other packet. -/
theorem filter_syn_count_step (v : Variant) (env : Env) (st : State) (pkt : List Nat)
    (ip : Nat) (e : ip_stats) (hbl : bpf_map_lookup_elem st.blacklist_map ip = none)
    (he : bpf_map_lookup_elem st.ip_tracking_map ip = some e) :
    ∃ a st', xdp_ddos_filter v env st pkt = some (a, st') ∧
      st'.blacklist_map = st.blacklist_map ∧
      (bpf_map_lookup_elem st'.ip_tracking_map ip = none ∨
        ∃ e', bpf_map_lookup_elem st'.ip_tracking_map ip = some e' ∧
          e'.syn_count = if tcp_syn_from ip pkt then (e.syn_count + 1) % 2 ^ v.counter_bits
            else e.syn_count) := by
  obtain ⟨a, st', h, _, hb, _, hnc, _, hban, htr⟩ := filter_effect v env st pkt
  refine ⟨a, st', h, hb, ?_⟩
  by_cases hc : counted pkt
  · cases hbk : is_blacklisted st.blacklist_map (ip_saddr pkt) with
    | true =>
      have hne : ip_saddr pkt ≠ ip := by
        intro heq
        rw [heq] at hbk
        simp [is_blacklisted, hbl] at hbk
      right
      rw [(hban hc hbk).1]
      exact ⟨e, he, by rw [if_neg (fun hs => hne hs.2.2.1)]⟩
    | false =>
      rw [(htr hc hbk).1]
      by_cases hsrc : ip_saddr pkt = ip
      · right
        subst hsrc
        obtain ⟨e', he', _, _, _, _, hsc, _⟩ := update_ip_stats_present v env.now_ip
          env.ip_victim st.ip_tracking_map (ip_saddr pkt) (pkt.length % 2 ^ 64)
          (ip_protocol pkt) (recorded_flags pkt) e he
        refine ⟨e', he', ?_⟩
        rw [hsc]
        by_cases hs : tcp_syn_from (ip_saddr pkt) pkt
        · rw [if_pos hs, if_pos ((syn_recorded_iff pkt _ hc rfl).mpr hs)]
        · rw [if_neg hs, if_neg (fun h => hs ((syn_recorded_iff pkt _ hc rfl).mp h))]
      · rcases update_ip_stats_other_or_gone v env.now_ip env.ip_victim st.ip_tracking_map
          (ip_saddr pkt) (pkt.length % 2 ^ 64) (ip_protocol pkt) (recorded_flags pkt) ip
          (Ne.symm hsrc) with h1 | h1
        · right
          exact ⟨e, by rw [h1]; exact he, by rw [if_neg (fun hs => hsrc hs.2.2.1)]⟩
        · left
          exact h1
  · right
    rw [hnc hc]
    exact ⟨e, he, by rw [if_neg (fun hs => hc ⟨hs.1, hs.2.1⟩)]⟩

/-- Any sequence of packets during which the IP entry of `ip` is never evicted: the source
still has no blacklist entry, and its stored `syn_count` has advanced (modulo the width of
the field) by the number of well-formed TCP SYN packets from `ip` in the sequence. -/
theorem run_syn_count (v : Variant) (ip : Nat) :
    ∀ (ps : List (Env × List Nat)) (st : State) (e : ip_stats),
      bpf_map_lookup_elem st.blacklist_map ip = none →
      bpf_map_lookup_elem st.ip_tracking_map ip = some e →
      e.syn_count < 2 ^ v.counter_bits →
      ip_entry_kept v ip st ps = true →
      ∃ acts st1 e1, run_packets v st ps = some (acts, st1) ∧
        bpf_map_lookup_elem st1.blacklist_map ip = none ∧
        bpf_map_lookup_elem st1.ip_tracking_map ip = some e1 ∧
        e1.syn_count = (e.syn_count + syn_packets_from ip ps) % 2 ^ v.counter_bits
  | [], st, e, hbl, he, hw, _ =>
    ⟨[], st, e, rfl, hbl, he, by
      simp only [syn_packets_from, List.countP_nil, Nat.add_zero]
      exact (Nat.mod_eq_of_lt hw).symm⟩
  | (env, pkt) :: rest, st, e, hbl, he, hw, hk => by
    obtain ⟨a, st', h, hb, hcase⟩ := filter_syn_count_step v env st pkt ip e hbl he
    simp only [ip_entry_kept, h, Bool.and_eq_true] at hk
    obtain ⟨hsome, hrest⟩ := hk
    rcases hcase with hnone | ⟨e', he', hsc⟩
    · rw [hnone] at hsome
      exact absurd hsome (by decide)
    · have hw' : e'.syn_count < 2 ^ v.counter_bits := by
        rw [hsc]
        by_cases hs : tcp_syn_from ip pkt
        · rw [if_pos hs]
          exact Nat.mod_lt _ (Nat.pos_pow_of_pos _ (by decide))
        · rw [if_neg hs]
          exact hw
      obtain ⟨acts, st1, e1, hrun, hbl1, he1, hc1⟩ :=
        run_syn_count v ip rest st' e' (by rw [hb]; exact hbl) he' hw' hrest
      refine ⟨a :: acts, st1, e1, ?_, hbl1, he1, ?_⟩
      · simp only [run_packets, h, Option.some_bind, hrun, Option.map_some']
      · rw [hc1, hsc]
        simp only [syn_packets_from, List.countP_cons]
        by_cases hs : tcp_syn_from ip pkt
        · simp only [hs, if_true, decide_True]
          rw [Nat.mod_add_mod]
          congr 1
          omega
        · simp only [hs, if_false, decide_False, Bool.false_eq_true, Nat.add_zero]

/-- C19, amended: blocking lasts until the stored count wraps.  Take a source that is not
blacklisted and whose IP entry holds a `syn_count` of `c` above 1000, then any sequence of
packets during which that entry is never evicted, `n` of them well-formed TCP SYN packets
from the source, then one more well-formed TCP SYN from the source.  The program drops that
SYN exactly when `(c + n) % 2 ^ w` is above 1000, `w` being the width of `syn_count`, and
passes it otherwise.  So the SYN is dropped as long as `c + n < 2 ^ w`, that is the next
`2 ^ w - c` SYN packets of the source are dropped; and it is passed when
`2 ^ w ≤ c + n ≤ 2 ^ w + 1000`, that is the 1001 SYN packets after those are passed, the
count having wrapped to 0. -/
theorem syn_blocking_until_wrap (v : Variant) (st : State) (ps : List (Env × List Nat))
    (ip : Nat) (e : ip_stats) (env : Env) (pkt : List Nat)
    (hbl : bpf_map_lookup_elem st.blacklist_map ip = none)
    (he : bpf_map_lookup_elem st.ip_tracking_map ip = some e)
    (hc : 1000 < e.syn_count) (hw : e.syn_count < 2 ^ v.counter_bits)
    (hkept : ip_entry_kept v ip st ps = true) (hsyn : tcp_syn_from ip pkt) :
    ∃ acts st1 st2, run_packets v st ps = some (acts, st1) ∧
      xdp_ddos_filter v env st1 pkt =
        some (if 1000 < (e.syn_count + syn_packets_from ip ps) % 2 ^ v.counter_bits
          then XDP_DROP else XDP_PASS, st2) ∧
      (e.syn_count + syn_packets_from ip ps < 2 ^ v.counter_bits →
        xdp_ddos_filter v env st1 pkt = some (XDP_DROP, st2)) ∧
      (2 ^ v.counter_bits ≤ e.syn_count + syn_packets_from ip ps →
        e.syn_count + syn_packets_from ip ps ≤ 2 ^ v.counter_bits + 1000 →
        xdp_ddos_filter v env st1 pkt = some (XDP_PASS, st2)) := by
  obtain ⟨acts, st1, e1, hrun, hbl1, he1, hc1⟩ := run_syn_count v ip ps st e hbl he hw hkept
  obtain ⟨st2, hstep, _⟩ := syn_step v env st1 pkt ip hsyn hbl1
    (Or.inr (Or.inr (by rw [he1]; exact Option.some_ne_none _)))
  have hst : stored_syn_count st1.ip_tracking_map ip =
      (e.syn_count + syn_packets_from ip ps) % 2 ^ v.counter_bits := by
    simp only [stored_syn_count, he1, hc1]
  rw [hst] at hstep
  refine ⟨acts, st1, st2, hrun, hstep, ?_, ?_⟩
  · intro hlt
    rw [hstep, Nat.mod_eq_of_lt hlt, if_pos (by omega)]
  · intro hge hle
    have hmod : (e.syn_count + syn_packets_from ip ps) % 2 ^ v.counter_bits =
        e.syn_count + syn_packets_from ip ps - 2 ^ v.counter_bits := by
      rw [Nat.mod_eq_sub_mod hge]
      exact Nat.mod_eq_of_lt (by omega)
    rw [hstep, hmod, if_neg (by omega)]

/-- C19 amended, with 16-bit counters and a stored count of 65535 for 10.0.0.1: after a
SYN-ACK from 10.0.0.2, an ACK from 10.0.0.1 and one SYN from 10.0.0.1, which wraps the
count to 0, the next SYN from 10.0.0.1 is passed. -/
theorem syn_blocking_until_wrap_witness :
    bpf_map_lookup_elem st_count_max.blacklist_map ip_10_0_0_1 = none ∧
    bpf_map_lookup_elem st_count_max.ip_tracking_map ip_10_0_0_1 =
      some ⟨65535, 3538890, 99, 1, 65535, 0⟩ ∧
    ip_entry_kept Variant.libbpf ip_10_0_0_1 st_count_max
      [(env_cpu0, frame_syn_ack), (env_cpu0, frame_ack), (env_cpu0, frame_syn)] = true ∧
    syn_packets_from ip_10_0_0_1
      [(env_cpu0, frame_syn_ack), (env_cpu0, frame_ack), (env_cpu0, frame_syn)] = 1 ∧
    tcp_syn_from ip_10_0_0_1 frame_syn ∧
    ∃ acts st1 st2, run_packets Variant.libbpf st_count_max
        [(env_cpu0, frame_syn_ack), (env_cpu0, frame_ack), (env_cpu0, frame_syn)] =
        some (acts, st1) ∧
      xdp_ddos_filter Variant.libbpf env_cpu0 st1 frame_syn = some (XDP_PASS, st2) := by
  refine ⟨by decide, by decide, by decide, by decide, by decide, ?_⟩
  obtain ⟨acts, st1, st2, hrun, _, _, hpass⟩ := syn_blocking_until_wrap Variant.libbpf
    st_count_max [(env_cpu0, frame_syn_ack), (env_cpu0, frame_ack), (env_cpu0, frame_syn)]
    ip_10_0_0_1 ⟨65535, 3538890, 99, 1, 65535, 0⟩ env_cpu0 frame_syn
    (by decide) (by decide) (by decide) (by decide) (by decide) (by decide)
  exact ⟨acts, st1, st2, hrun, hpass (by decide) (by decide)⟩

/-! ## The two source files compared -/

/-- C20, at 65537 consecutive copies of one well-formed TCP SYN, from empty tables and an
empty blacklist (one IP entry and one flow entry are ever held): the two files agree on
packet number 1002, which both drop, and disagree on packet number 65537, which
`xdp_filter_libbpf.c` passes, its 16-bit `syn_count` having wrapped to 0, and which
`xdp_filter.c` drops, its 32-bit `syn_count` standing at 65536. -/
theorem variants_disagree_after_65536_syns :
    tcp_syn_from ip_10_0_0_1 frame_syn ∧
    st_empty.blacklist_map = [] ∧ st_empty.ip_tracking_map = [] ∧ st_empty.flow_map = [] ∧
    (run_packets Variant.libbpf st_empty (List.replicate 65537 (env_cpu0, frame_syn))).map
      (fun r => (r.1[1001]?, r.1[65536]?)) = some (some XDP_DROP, some XDP_PASS) ∧
    (run_packets Variant.bcc st_empty (List.replicate 65537 (env_cpu0, frame_syn))).map
      (fun r => (r.1[1001]?, r.1[65536]?)) = some (some XDP_DROP, some XDP_DROP) := by
  have hsyn : ∀ p ∈ List.replicate 65537 (env_cpu0, frame_syn), tcp_syn_from ip_10_0_0_1 p.2 :=
    fun p hp => by rw [(List.mem_replicate.mp hp).2]; decide
  obtain ⟨s1, h1⟩ := run_syn Variant.libbpf ip_10_0_0_1
    (List.replicate 65537 (env_cpu0, frame_syn)) st_empty 0 hsyn
    (by decide) (by decide) (Or.inr ⟨by decide, rfl, Or.inl rfl⟩)
  obtain ⟨s2, h2⟩ := run_syn Variant.bcc ip_10_0_0_1
    (List.replicate 65537 (env_cpu0, frame_syn)) st_empty 0 hsyn
    (by decide) (by decide) (Or.inr ⟨by decide, rfl, Or.inr (by decide)⟩)
  rw [List.length_replicate] at h1 h2
  refine ⟨by decide, rfl, rfl, rfl, ?_, ?_⟩
  · rw [h1]
    simp only [Option.map_some', getElem?_range_map _ 65537 1001 (by decide),
      getElem?_range_map _ 65537 65536 (by decide)]
    decide
  · rw [h2]
    simp only [Option.map_some', getElem?_range_map _ 65537 1001 (by decide),
      getElem?_range_map _ 65537 65536 (by decide)]
    decide

/-! ## The recorded flow key -/

end XdpFilter
